import Mathlib

set_option maxRecDepth 100000

/-!
# Verification of the bed-management ward engine

Shallow embedding of the repository's core (`src/src/domain/{constants,patient,bed,hospital}.rs`).

Modelling conventions:
* Machine integers (`u16` bed numbers, `u32` record numbers, `u8` ages) are modelled as `Nat`;
  all arithmetic performed by the code on valid values stays far below the wrap-around points,
  and the construction-time validations (`Bed::new`, `Patient::new`) abort instead of wrapping.
* The `HashMap<u16, Bed>` owned by `Hospital` always has exactly the key set built by
  `Hospital::new` (no other code path inserts or removes keys), so it is modelled as a total
  function `Nat → BedState` read through `getBed`, which returns `none` exactly on the keys
  that are absent from the map (invalid bed numbers).  Iteration over the map is modelled as
  iteration over `allBeds`, the list of keys in ascending order; `HashMap` iteration order is
  unspecified in the source, and ascending order is the canonical choice.
* The `Bed` wrapper struct holds only a `state : BedState`; it is flattened into `BedState`.
* Methods taking `&mut self` and returning `Result<(), String>` become functions
  `Hospital → ... → RResult`, where `RResult` carries the final state in both the `Ok` and the
  `Err` case (mutations made before an early `return Err` persist in the Rust code).
-/

inductive Gender where
  | Male
  | Female
  deriving DecidableEq

/-- `Patient` (src/src/domain/patient.rs). `Patient::new` validates
`10000 <= clinical_record_number <= 99999` and aborts otherwise; the fields are as in the
source. -/
structure Patient where
  clinical_record_number : Nat
  name : String
  age : Nat
  gender : Gender
  is_infected : Bool
  is_vip : Bool
  deriving DecidableEq

/-- `BedState` (src/src/domain/bed.rs). -/
inductive BedState where
  | Occupied (p : Patient)
  | Vacant
  | Blocked
  deriving DecidableEq

/-- `Bed::is_available` (bed.rs line 46). -/
def BedState.is_available : BedState → Bool
  | .Vacant => true
  | _ => false

/-- `Bed::is_blocked` (bed.rs line 51). -/
def BedState.is_blocked : BedState → Bool
  | .Blocked => true
  | _ => false

/-- `VALID_UNITS` (src/src/domain/constants.rs). -/
def VALID_UNITS : List Nat := [1, 2, 4, 5]

def FIRST_BED_INDEX : Nat := 1

def LAST_BED_INDEX : Nat := 38

/-- The key set of the bed map built by `Hospital::new` (hospital.rs lines 14-26), in the
order the two nested loops produce it: units ascending, indices 1..=38 inside each unit.
This order is also ascending as a whole. -/
def allBeds : List Nat :=
  VALID_UNITS.flatMap (fun unit =>
    (List.range' FIRST_BED_INDEX LAST_BED_INDEX).map (fun idx => unit * 100 + idx))

/-- A bed number `n` is a key of the ward's map iff it decodes as `unit*100 + index` with a
valid unit and an index in `FIRST_BED_INDEX..=LAST_BED_INDEX` (the validation performed by
`Bed::new`, bed.rs lines 25-43). -/
def validBed (n : Nat) : Prop :=
  (n / 100 = 1 ∨ n / 100 = 2 ∨ n / 100 = 4 ∨ n / 100 = 5) ∧
    FIRST_BED_INDEX ≤ n % 100 ∧ n % 100 ≤ LAST_BED_INDEX

instance (n : Nat) : Decidable (validBed n) := by
  unfold validBed
  infer_instance

/-- `Hospital` (hospital.rs line 7): the bed map, as a total function read through `getBed`. -/
structure Hospital where
  beds : Nat → BedState

/-- `Hospital::new` (hospital.rs lines 14-26): every valid bed is created `Vacant`. -/
def Hospital.new : Hospital := ⟨fun _ => BedState.Vacant⟩

/-- `self.beds.get(&n)`: `some` exactly on the map's keys. -/
def getBed (h : Hospital) (n : Nat) : Option BedState :=
  if validBed n then some (h.beds n) else none

/-- Writing through `self.beds.get_mut(&n)` at a key known to be present. -/
def setBed (h : Hospital) (n : Nat) (s : BedState) : Hospital :=
  ⟨fun m => if m = n then s else h.beds m⟩

/-- `Hospital::roommate_of` (hospital.rs lines 30-36). -/
def roommate_of (bed_number : Nat) : Nat :=
  if bed_number % 2 = 0 then bed_number - 1 else bed_number + 1

/-- The `(Result<(), String>, self)` pair produced by a `&mut self` operation: the resulting
ward state is carried in both the success and the error case. -/
inductive RResult where
  | ok (h : Hospital)
  | err (e : String) (h : Hospital)

def RResult.state : RResult → Hospital
  | .ok h => h
  | .err _ h => h

def RResult.isOk : RResult → Bool
  | .ok _ => true
  | .err _ _ => false

/-- The patient-lookup loop used by move/setVip/mark/unmark/discharge (e.g. hospital.rs
lines 106-115): scan the map, stop at the first occupied bed whose record number matches. -/
def findPatientAux (h : Hospital) (clinical_record : Nat) : List Nat → Option (Nat × Patient)
  | [] => none
  | n :: rest =>
    match h.beds n with
    | .Occupied p =>
      if p.clinical_record_number = clinical_record then some (n, p)
      else findPatientAux h clinical_record rest
    | _ => findPatientAux h clinical_record rest

def findPatient (h : Hospital) (clinical_record : Nat) : Option (Nat × Patient) :=
  findPatientAux h clinical_record allBeds

/-- Step 4 of `Hospital::admit_patient` (hospital.rs lines 56-82): the roommate-bed
compatibility checks, returning the first failing rule's error if any.  The source performs
the three occupancy checks inside `if let Occupied`, and then, still inside
`if let Some(roommate_bed)`, the `(infected || vip) && !is_available` check; the latter is
inlined here per roommate-bed state (`Occupied` and `Blocked` are never available, `Vacant`
always is). -/
def admit_roommate_check (h : Hospital) (patient : Patient) (roommate_bed_number : Nat) :
    Option String :=
  match getBed h roommate_bed_number with
  | none => none
  | some (.Occupied roommate) =>
    if patient.gender ≠ roommate.gender then
      some "Roommates must have the same gender"
    else if ¬ ((patient.age < 16) ↔ (roommate.age < 16)) then
      some "Patients under 16 can only share with other under-16 patients"
    else if roommate.is_infected || roommate.is_vip then
      some "Cannot share a room with an infectious or VIP patient"
    else if patient.is_infected || patient.is_vip then
      some "Patient requires the adjacent bed to be blocked, but it is not free"
    else none
  | some .Vacant => none
  | some .Blocked =>
    if patient.is_infected || patient.is_vip then
      some "Patient requires the adjacent bed to be blocked, but it is not free"
    else none

/-- `Hospital::admit_patient` (hospital.rs lines 41-97). -/
def admit_patient (h : Hospital) (patient : Patient) (bed_number : Nat) : RResult :=
  match getBed h bed_number with
  | none => .err "Bed does not exist" h
  | some bed =>
    if !bed.is_available then .err "Bed is not available" h
    else if patient.age < 13 ∧ bed_number / 100 ≠ 5 then
      .err "Patients under 13 must be in unit 5" h
    else
      match admit_roommate_check h patient (roommate_of bed_number) with
      | some e => .err e h
      | none =>
        let h1 := setBed h bed_number (.Occupied patient)
        if patient.is_infected || patient.is_vip then
          match getBed h1 (roommate_of bed_number) with
          | some roommate_bed =>
            if roommate_bed.is_available then
              .ok (setBed h1 (roommate_of bed_number) .Blocked)
            else .ok h1
          | none => .ok h1
        else .ok h1

/-- `Hospital::move_patient`, lines 121-131: free the origin bed, and if the patient is VIP or
infectious unblock the old roommate bed when it is blocked. -/
def freeAndUnblock (h : Hospital) (current_bed_number : Nat) (patient : Patient) : Hospital :=
  let h1 := setBed h current_bed_number .Vacant
  if patient.is_infected || patient.is_vip then
    match getBed h1 (roommate_of current_bed_number) with
    | some old_rm => if old_rm.is_blocked then setBed h1 (roommate_of current_bed_number) .Vacant else h1
    | none => h1
  else h1

/-- `Hospital::move_patient`, lines 137-148: restore the patient to the original bed and
re-block the old roommate bed when needed. -/
def rollbackMove (h : Hospital) (current_bed_number : Nat) (patient : Patient) : Hospital :=
  let h4 := setBed h current_bed_number (.Occupied patient)
  if patient.is_infected || patient.is_vip then
    match getBed h4 (roommate_of current_bed_number) with
    | some old_rm => if old_rm.is_available then setBed h4 (roommate_of current_bed_number) .Blocked else h4
    | none => h4
  else h4

/-- `Hospital::move_patient` (hospital.rs lines 100-152). -/
def move_patient (h : Hospital) (clinical_record : Nat) (new_bed_number : Nat) : RResult :=
  match findPatient h clinical_record with
  | none => .err "Patient not found" h
  | some (current_bed_number, patient) =>
    match admit_patient (freeAndUnblock h current_bed_number patient) patient new_bed_number with
    | .ok h3 => .ok h3
    | .err e h3 => .err e (rollbackMove h3 current_bed_number patient)

/-- The body of the two-patient lookup loop of `Hospital::switch_patients` (hospital.rs
lines 164-174): a bed matching the first record number is never considered for the second
slot (the `else if`). -/
def switch_scan_step (h : Hospital) (clinical_record1 clinical_record2 : Nat)
    (acc : Option (Nat × Patient) × Option (Nat × Patient)) (n : Nat) :
    Option (Nat × Patient) × Option (Nat × Patient) :=
  match h.beds n with
  | .Occupied p =>
    if p.clinical_record_number = clinical_record1 then (some (n, p), acc.2)
    else if p.clinical_record_number = clinical_record2 then (acc.1, some (n, p))
    else acc
  | _ => acc

/-- The two-patient lookup loop of `Hospital::switch_patients` (hospital.rs lines 164-174):
one pass over the map without early exit. -/
def switch_scan (h : Hospital) (clinical_record1 clinical_record2 : Nat) :
    Option (Nat × Patient) × Option (Nat × Patient) :=
  allBeds.foldl (switch_scan_step h clinical_record1 clinical_record2) (none, none)

/-- The destination-roommate compatibility check of `Hospital::switch_patients`
(hospital.rs lines 191-208 and 209-226), for one direction. -/
def switch_roommate_check (h : Hospital) (moved : Patient) (other_bed roommate_number : Nat) :
    Option String :=
  if other_bed ≠ roommate_number then
    match getBed h roommate_number with
    | some (.Occupied rm) =>
      if moved.gender ≠ rm.gender then some "Switch would violate gender rule"
      else if ¬ ((moved.age < 16) ↔ (rm.age < 16)) then some "Switch would violate age rule"
      else if rm.is_infected || rm.is_vip then
        some "Switch would violate rule: cannot share with infectious/VIP"
      else none
    | _ => none
  else none

/-- `Hospital::switch_patients` (hospital.rs lines 155-233). -/
def switch_patients (h : Hospital) (clinical_record1 clinical_record2 : Nat) : RResult :=
  match switch_scan h clinical_record1 clinical_record2 with
  | (none, _) => .err "First patient not found" h
  | (some _, none) => .err "Second patient not found" h
  | (some (bed1_number, p1), some (bed2_number, p2)) =>
    if p1.age < 13 ∧ bed2_number / 100 ≠ 5 then
      .err "Cannot move a patient under 13 outside unit 5" h
    else if p2.age < 13 ∧ bed1_number / 100 ≠ 5 then
      .err "Cannot move a patient under 13 outside unit 5" h
    else
      match switch_roommate_check h p2 bed2_number (roommate_of bed1_number) with
      | some e => .err e h
      | none =>
        match switch_roommate_check h p1 bed1_number (roommate_of bed2_number) with
        | some e => .err e h
        | none =>
          .ok (setBed (setBed h bed1_number (.Occupied p2)) bed2_number (.Occupied p1))

/-- The per-bed qualification test of `Hospital::get_available_beds_for_patient`
(hospital.rs lines 465-499). -/
def bed_available_for (h : Hospital) (patient : Patient) (bed_number : Nat) : Bool :=
  match getBed h bed_number with
  | none => false
  | some bed =>
    bed.is_available &&
    !(decide (patient.age < 13) && decide (bed_number / 100 ≠ 5)) &&
    (match getBed h (roommate_of bed_number) with
     | none => true
     | some roommate_bed =>
       (match roommate_bed with
        | .Occupied roommate =>
          decide (patient.gender = roommate.gender) &&
          (decide (patient.age < 16) == decide (roommate.age < 16)) &&
          !(roommate.is_infected || roommate.is_vip)
        | _ => true) &&
       !((patient.is_infected || patient.is_vip) && !roommate_bed.is_available))

/-- `Hospital::get_available_beds_for_patient` (hospital.rs lines 462-503).  The map is
iterated in ascending key order (see `allBeds`), so the final `sort_unstable` of the source
is the identity here; sortedness of the result is proved below. -/
def get_available_beds_for_patient (h : Hospital) (patient : Patient) : List Nat :=
  allBeds.filter (bed_available_for h patient)

/-- `Hospital::set_patient_vip` (hospital.rs lines 236-287).  Note: the flag is written to the
bed (line 255) before the roommate relocation is attempted. -/
def set_patient_vip (h : Hospital) (clinical_record : Nat) (is_vip : Bool) : RResult :=
  match findPatient h clinical_record with
  | none => .err "Patient not found" h
  | some (bed_number, p0) =>
    if p0.is_vip = is_vip then .ok h
    else
      let p : Patient := { p0 with is_vip := is_vip }
      let h1 := setBed h bed_number (.Occupied p)
      let roommate_number := roommate_of bed_number
      if is_vip then
        match (match getBed h1 roommate_number with
          | some (.Occupied roommate) =>
            match (get_available_beds_for_patient h1 roommate).head? with
            | some dest => move_patient h1 roommate.clinical_record_number dest
            | none => .err "No available bed to relocate roommate" h1
          | _ => .ok h1) with
        | .err e h2 => .err e h2
        | .ok h2 =>
          match getBed h2 roommate_number with
          | some _ => .ok (setBed h2 roommate_number .Blocked)
          | none => .ok h2
      else
        if !p.is_infected then
          match getBed h1 roommate_number with
          | some rm =>
            if rm.is_blocked then .ok (setBed h1 roommate_number .Vacant) else .ok h1
          | none => .ok h1
        else .ok h1

/-- `Hospital::mark_patient_as_infected` (hospital.rs lines 290-336).  The infected flag is
written to the bed (line 328) only after the roommate relocation has succeeded. -/
def mark_patient_as_infected (h : Hospital) (clinical_record : Nat) : RResult :=
  match findPatient h clinical_record with
  | none => .err "Patient not found" h
  | some (bed_number, p0) =>
    if p0.is_infected then .ok h
    else
      let p : Patient := { p0 with is_infected := true }
      let roommate_number := roommate_of bed_number
      match (match getBed h roommate_number with
        | some (.Occupied roommate) =>
          match (get_available_beds_for_patient h roommate).head? with
          | some dest => move_patient h roommate.clinical_record_number dest
          | none => .err "No available bed to move roommate" h
        | _ => .ok h) with
      | .err e h2 => .err e h2
      | .ok h2 =>
        let h3 := setBed h2 bed_number (.Occupied p)
        match getBed h3 roommate_number with
        | some rm_bed =>
          if rm_bed.is_available then .ok (setBed h3 roommate_number .Blocked) else .ok h3
        | none => .ok h3

/-- `Hospital::unmark_patient_as_infected` (hospital.rs lines 339-368). -/
def unmark_patient_as_infected (h : Hospital) (clinical_record : Nat) : RResult :=
  match findPatient h clinical_record with
  | none => .err "Patient not found" h
  | some (bed_number, p0) =>
    if !p0.is_infected then .ok h
    else
      let p : Patient := { p0 with is_infected := false }
      let h1 := setBed h bed_number (.Occupied p)
      if !p.is_vip then
        match getBed h1 (roommate_of bed_number) with
        | some rm_bed =>
          if rm_bed.is_blocked then .ok (setBed h1 (roommate_of bed_number) .Vacant)
          else .ok h1
        | none => .ok h1
      else .ok h1

/-- `Hospital::discharge_patient` (hospital.rs lines 371-399). -/
def discharge_patient (h : Hospital) (clinical_record : Nat) : RResult :=
  match findPatient h clinical_record with
  | none => .err "Patient not found" h
  | some (bed_number, p) =>
    let h1 := setBed h bed_number .Vacant
    if p.is_infected || p.is_vip then
      match getBed h1 (roommate_of bed_number) with
      | some rm_bed =>
        if rm_bed.is_blocked then .ok (setBed h1 (roommate_of bed_number) .Vacant)
        else .ok h1
      | none => .ok h1
    else .ok h1

example : allBeds.length = 152 := by decide

example :
    (admit_patient Hospital.new ⟨10001, "A", 30, .Male, false, false⟩ 101).isOk = true := by
  decide


/-! ## Basic facts about the bed-number scheme and the map model -/

theorem Hospital.beds_ext {h1 h2 : Hospital} (H : ∀ n, h1.beds n = h2.beds n) : h1 = h2 := by
  cases h1
  cases h2
  simp only [Hospital.mk.injEq]
  funext n
  exact H n

@[simp] theorem beds_setBed (h : Hospital) (n : Nat) (s : BedState) (m : Nat) :
    (setBed h n s).beds m = if m = n then s else h.beds m := rfl

theorem mem_allBeds {n : Nat} : n ∈ allBeds ↔ validBed n := by
  unfold allBeds validBed VALID_UNITS FIRST_BED_INDEX LAST_BED_INDEX
  simp only [List.mem_flatMap, List.mem_map, List.mem_range', List.mem_cons,
    List.mem_singleton, List.not_mem_nil]
  constructor
  · rintro ⟨u, hu, i, ⟨j, hj, rfl⟩, rfl⟩
    rcases hu with rfl | rfl | rfl | rfl | hu
    · omega
    · omega
    · omega
    · omega
    · simp at hu
  · rintro ⟨hq, h1, h2⟩
    refine ⟨n / 100, ?_, n % 100, ⟨n % 100 - 1, ?_, ?_⟩, ?_⟩ <;> omega

theorem validBed_of_mem_allBeds {n : Nat} (H : n ∈ allBeds) : validBed n :=
  mem_allBeds.mp H

theorem roommate_of_valid {n : Nat} (v : validBed n) : validBed (roommate_of n) := by
  unfold validBed FIRST_BED_INDEX LAST_BED_INDEX at *
  unfold roommate_of
  split <;> omega

theorem roommate_of_roommate {n : Nat} (v : validBed n) : roommate_of (roommate_of n) = n := by
  unfold validBed FIRST_BED_INDEX LAST_BED_INDEX at v
  unfold roommate_of
  split <;> split <;> omega

theorem roommate_of_ne {n : Nat} (v : validBed n) : roommate_of n ≠ n := by
  unfold validBed FIRST_BED_INDEX LAST_BED_INDEX at v
  unfold roommate_of
  split <;> omega

theorem eq_roommate_of_of {m n : Nat} (v : validBed m) (H : roommate_of m = n) :
    m = roommate_of n := by
  rw [← H, roommate_of_roommate v]

theorem getBed_eq_some {h : Hospital} {n : Nat} (v : validBed n) :
    getBed h n = some (h.beds n) := by
  unfold getBed
  exact if_pos v

theorem getBed_eq_none {h : Hospital} {n : Nat} (v : ¬ validBed n) : getBed h n = none := by
  unfold getBed
  exact if_neg v

theorem allBeds_sorted : List.Sorted (· < ·) allBeds := by
  rw [List.Sorted]
  decide

theorem allBeds_nodup : allBeds.Nodup := by
  exact allBeds_sorted.imp (fun {a b} hab => Nat.ne_of_lt hab)

/-! ## Facts about the patient-lookup scans -/

theorem findPatientAux_sound {h : Hospital} {c : Nat} {l : List Nat} {n : Nat} {p : Patient}
    (H : findPatientAux h c l = some (n, p)) :
    n ∈ l ∧ h.beds n = .Occupied p ∧ p.clinical_record_number = c := by
  induction l with
  | nil => simp [findPatientAux] at H
  | cons m rest ih =>
    rw [findPatientAux] at H
    split at H
    next q hb =>
      split at H
      next hc =>
        obtain ⟨rfl, rfl⟩ : m = n ∧ q = p := by simpa using H
        exact ⟨List.mem_cons_self m rest, hb, hc⟩
      next hc =>
        obtain ⟨h1, h2, h3⟩ := ih H
        exact ⟨List.mem_cons_of_mem m h1, h2, h3⟩
    next hb =>
      obtain ⟨h1, h2, h3⟩ := ih H
      exact ⟨List.mem_cons_of_mem m h1, h2, h3⟩

theorem findPatient_sound {h : Hospital} {c : Nat} {n : Nat} {p : Patient}
    (H : findPatient h c = some (n, p)) :
    validBed n ∧ h.beds n = .Occupied p ∧ p.clinical_record_number = c := by
  obtain ⟨h1, h2, h3⟩ := findPatientAux_sound H
  exact ⟨mem_allBeds.mp h1, h2, h3⟩

theorem findPatientAux_eq_none {h : Hospital} {c : Nat} {l : List Nat} :
    findPatientAux h c l = none ↔
      ∀ n ∈ l, ∀ p : Patient, h.beds n = .Occupied p → p.clinical_record_number ≠ c := by
  induction l with
  | nil => simp [findPatientAux]
  | cons m rest ih =>
    rw [findPatientAux]
    constructor
    · intro H n hn p hp
      rcases List.mem_cons.mp hn with rfl | hn'
      · intro hc
        rw [hp] at H
        simp [hc] at H
      · refine (ih.mp ?_) n hn' p hp
        revert H
        split
        next q hb =>
          split
          next => intro H; cases H
          next => exact fun H => H
        next hb => exact fun H => H
    · intro H
      have hrest : findPatientAux h c rest = none :=
        ih.mpr fun n hn p hp => H n (List.mem_cons_of_mem m hn) p hp
      split
      next q hb =>
        rw [if_neg (H m (List.mem_cons_self m rest) q hb)]
        exact hrest
      next hb => exact hrest

theorem findPatient_eq_none {h : Hospital} {c : Nat} :
    findPatient h c = none ↔
      ∀ n ∈ allBeds, ∀ p : Patient, h.beds n = .Occupied p → p.clinical_record_number ≠ c :=
  findPatientAux_eq_none

theorem findPatient_isSome_of_occ {h : Hospital} {c : Nat} {n : Nat} {p : Patient}
    (hn : n ∈ allBeds) (hp : h.beds n = .Occupied p) (hc : p.clinical_record_number = c) :
    (findPatient h c).isSome = true := by
  cases H : findPatient h c with
  | some v => rfl
  | none => exact absurd hc (findPatient_eq_none.mp H n hn p hp)

/-! ## Facts about the switch-patients lookup loop -/

theorem is_available_iff {s : BedState} : s.is_available = true ↔ s = .Vacant := by
  cases s <;> simp [BedState.is_available]

theorem is_blocked_iff {s : BedState} : s.is_blocked = true ↔ s = .Blocked := by
  cases s <;> simp [BedState.is_blocked]

theorem switch_scan_step_fst_isSome {h : Hospital} {c1 c2 : Nat}
    {acc : Option (Nat × Patient) × Option (Nat × Patient)} {m : Nat}
    (H : acc.1.isSome = true) : (switch_scan_step h c1 c2 acc m).1.isSome = true := by
  unfold switch_scan_step
  split
  next p hb =>
    split
    · rfl
    · split
      · exact H
      · exact H
  next => exact H

theorem foldl_scan_fst_isSome {h : Hospital} {c1 c2 : Nat} (l : List Nat)
    (acc : Option (Nat × Patient) × Option (Nat × Patient)) (H : acc.1.isSome = true) :
    ((l.foldl (switch_scan_step h c1 c2) acc).1).isSome = true := by
  induction l generalizing acc with
  | nil => exact H
  | cons m rest ih =>
    rw [List.foldl_cons]
    exact ih _ (switch_scan_step_fst_isSome H)

theorem foldl_scan_fst_isSome_of_mem {h : Hospital} {c1 c2 : Nat} {l : List Nat} {n : Nat}
    {p : Patient} (hn : n ∈ l) (hb : h.beds n = .Occupied p)
    (hc : p.clinical_record_number = c1) :
    ∀ acc, ((l.foldl (switch_scan_step h c1 c2) acc).1).isSome = true := by
  induction l with
  | nil => cases hn
  | cons m rest ih =>
    intro acc
    rw [List.foldl_cons]
    rcases List.mem_cons.mp hn with rfl | hn'
    · refine foldl_scan_fst_isSome rest _ ?_
      unfold switch_scan_step
      rw [hb]
      simp [hc]
    · exact ih hn' _

theorem switch_scan_fst_isSome {h : Hospital} {c1 c2 : Nat} {n : Nat} {p : Patient}
    (hn : n ∈ allBeds) (hb : h.beds n = .Occupied p)
    (hc : p.clinical_record_number = c1) : ((switch_scan h c1 c2).1).isSome = true :=
  foldl_scan_fst_isSome_of_mem hn hb hc _

theorem switch_scan_step_snd_self {h : Hospital} {r : Nat}
    {acc : Option (Nat × Patient) × Option (Nat × Patient)} {m : Nat} (H : acc.2 = none) :
    (switch_scan_step h r r acc m).2 = none := by
  unfold switch_scan_step
  split
  next p hb =>
    by_cases hc : p.clinical_record_number = r
    · rw [if_pos hc]
      exact H
    · rw [if_neg hc, if_neg hc]
      exact H
  next => exact H

theorem switch_scan_snd_self {h : Hospital} {r : Nat} : (switch_scan h r r).2 = none := by
  unfold switch_scan
  generalize hacc : (none, none) = acc at *
  have H : acc.2 = none := by rw [← hacc]
  clear hacc
  induction allBeds generalizing acc with
  | nil => exact H
  | cons m rest ih =>
    rw [List.foldl_cons]
    exact ih _ (switch_scan_step_snd_self H)

theorem switch_scan_sound {h : Hospital} {c1 c2 : Nat} :
    (∀ n p, (switch_scan h c1 c2).1 = some (n, p) →
      n ∈ allBeds ∧ h.beds n = .Occupied p ∧ p.clinical_record_number = c1) ∧
    (∀ n p, (switch_scan h c1 c2).2 = some (n, p) →
      n ∈ allBeds ∧ h.beds n = .Occupied p ∧ p.clinical_record_number = c2 ∧
        p.clinical_record_number ≠ c1) := by
  unfold switch_scan
  have main : ∀ (l : List Nat) (acc : Option (Nat × Patient) × Option (Nat × Patient)),
      (∀ n p, acc.1 = some (n, p) →
        n ∈ allBeds ∧ h.beds n = .Occupied p ∧ p.clinical_record_number = c1) →
      (∀ n p, acc.2 = some (n, p) →
        n ∈ allBeds ∧ h.beds n = .Occupied p ∧ p.clinical_record_number = c2 ∧
          p.clinical_record_number ≠ c1) →
      (∀ n ∈ l, n ∈ allBeds) →
      (∀ n p, (l.foldl (switch_scan_step h c1 c2) acc).1 = some (n, p) →
        n ∈ allBeds ∧ h.beds n = .Occupied p ∧ p.clinical_record_number = c1) ∧
      (∀ n p, (l.foldl (switch_scan_step h c1 c2) acc).2 = some (n, p) →
        n ∈ allBeds ∧ h.beds n = .Occupied p ∧ p.clinical_record_number = c2 ∧
          p.clinical_record_number ≠ c1) := by
    intro l
    induction l with
    | nil => exact fun acc H1 H2 _ => ⟨H1, H2⟩
    | cons m rest ih =>
      intro acc H1 H2 Hmem
      rw [List.foldl_cons]
      refine ih _ ?_ ?_ (fun n hn => Hmem n (List.mem_cons_of_mem m hn))
      · intro n p hnp
        unfold switch_scan_step at hnp
        revert hnp
        split
        next q hb =>
          by_cases hc1 : q.clinical_record_number = c1
          · rw [if_pos hc1]
            intro hnp
            obtain ⟨rfl, rfl⟩ : m = n ∧ q = p := by simpa using hnp
            exact ⟨Hmem m (List.mem_cons_self m rest), hb, hc1⟩
          · rw [if_neg hc1]
            by_cases hc2 : q.clinical_record_number = c2
            · rw [if_pos hc2]
              exact H1 n p
            · rw [if_neg hc2]
              exact H1 n p
        next => exact H1 n p
      · intro n p hnp
        unfold switch_scan_step at hnp
        revert hnp
        split
        next q hb =>
          by_cases hc1 : q.clinical_record_number = c1
          · rw [if_pos hc1]
            exact H2 n p
          · rw [if_neg hc1]
            by_cases hc2 : q.clinical_record_number = c2
            · rw [if_pos hc2]
              intro hnp
              obtain ⟨rfl, rfl⟩ : m = n ∧ q = p := by simpa using hnp
              exact ⟨Hmem m (List.mem_cons_self m rest), hb, hc2, hc1⟩
            · rw [if_neg hc2]
              exact H2 n p
        next => exact H2 n p
  exact main allBeds (none, none) (by simp) (by simp) (fun n hn => hn)

theorem switch_scan_distinct {h : Hospital} {c1 c2 : Nat} {n1 n2 : Nat} {p1 p2 : Patient}
    (H1 : (switch_scan h c1 c2).1 = some (n1, p1))
    (H2 : (switch_scan h c1 c2).2 = some (n2, p2)) : n1 ≠ n2 := by
  obtain ⟨_, hb1, hc1⟩ := switch_scan_sound.1 n1 p1 H1
  obtain ⟨_, hb2, hc2, hne⟩ := switch_scan_sound.2 n2 p2 H2
  intro hEq
  rw [hEq, hb2] at hb1
  obtain rfl : p2 = p1 := by simpa using hb1
  rw [hc1] at hne
  exact hne rfl

/-! ## Characterization of `admit_patient` -/

theorem admit_roommate_check_none {h : Hospital} {patient : Patient} {rn : Nat}
    (v : validBed rn) (H : admit_roommate_check h patient rn = none) :
    (∀ q, h.beds rn = .Occupied q →
      patient.gender = q.gender ∧ ((patient.age < 16) ↔ (q.age < 16)) ∧
      q.is_infected = false ∧ q.is_vip = false ∧
      (patient.is_infected || patient.is_vip) = false) ∧
    ((patient.is_infected || patient.is_vip) = true → h.beds rn = .Vacant) := by
  unfold admit_roommate_check at H
  rw [getBed_eq_some v] at H
  cases hrb : h.beds rn with
  | Occupied q =>
    rw [hrb] at H
    simp only at H
    constructor
    · intro q' hq'
      obtain rfl : q = q' := by
        simpa using hq'
      by_cases h1 : patient.gender = q.gender
      · by_cases h2 : (patient.age < 16) ↔ (q.age < 16)
        · rw [if_neg (by simpa using h1), if_neg (by simpa using h2)] at H
          by_cases h3 : (q.is_infected || q.is_vip) = true
          · rw [if_pos h3] at H
            cases H
          · rw [if_neg h3] at H
            by_cases h4 : (patient.is_infected || patient.is_vip) = true
            · rw [if_pos h4] at H
              cases H
            · simp only [Bool.or_eq_true, not_or, Bool.not_eq_true] at h3 h4
              exact ⟨h1, h2, h3.1, h3.2, by simp [h4.1, h4.2]⟩
        · rw [if_neg (by simpa using h1), if_pos (by simpa using h2)] at H
          cases H
      · rw [if_pos (by simpa using h1)] at H
        cases H
    · intro hvip
      by_cases h1 : patient.gender = q.gender
      · by_cases h2 : (patient.age < 16) ↔ (q.age < 16)
        · rw [if_neg (by simpa using h1), if_neg (by simpa using h2)] at H
          by_cases h3 : (q.is_infected || q.is_vip) = true
          · rw [if_pos h3] at H
            cases H
          · rw [if_neg h3, if_pos hvip] at H
            cases H
        · rw [if_neg (by simpa using h1), if_pos (by simpa using h2)] at H
          cases H
      · rw [if_pos (by simpa using h1)] at H
        cases H
  | Vacant =>
    constructor
    · intro q hq
      exact BedState.noConfusion hq
    · intro _
      rfl
  | Blocked =>
    rw [hrb] at H
    simp only at H
    constructor
    · intro q hq
      exact BedState.noConfusion hq
    · intro hvip
      rw [if_pos hvip] at H
      cases H

theorem admit_ok_char {h : Hospital} {p : Patient} {b : Nat} {h' : Hospital}
    (H : admit_patient h p b = .ok h') :
    validBed b ∧ h.beds b = .Vacant ∧
    (p.age < 13 → b / 100 = 5) ∧
    (∀ q, h.beds (roommate_of b) = .Occupied q →
      p.gender = q.gender ∧ ((p.age < 16) ↔ (q.age < 16)) ∧
      q.is_infected = false ∧ q.is_vip = false ∧
      (p.is_infected || p.is_vip) = false) ∧
    ((p.is_infected || p.is_vip) = true → h.beds (roommate_of b) = .Vacant) ∧
    h' = (if (p.is_infected || p.is_vip) = true
          then setBed (setBed h b (.Occupied p)) (roommate_of b) .Blocked
          else setBed h b (.Occupied p)) := by
  unfold admit_patient at H
  split at H
  next hg => exact RResult.noConfusion H
  next bedSt hg =>
    have hvb : validBed b := by
      by_contra hv
      rw [getBed_eq_none hv] at hg
      cases hg
    have hbSt : bedSt = h.beds b := by
      rw [getBed_eq_some hvb] at hg
      simpa using hg.symm
    split at H
    next havail => exact RResult.noConfusion H
    next havail =>
      have hvac : h.beds b = .Vacant := by
        rw [← hbSt]
        exact is_available_iff.mp (by simpa using havail)
      split at H
      next hage => exact RResult.noConfusion H
      next hage =>
        have hage' : p.age < 13 → b / 100 = 5 := by
          intro hlt
          by_contra hne
          exact hage ⟨hlt, hne⟩
        split at H
        next e heq => exact RResult.noConfusion H
        next heq =>
          have hvrm : validBed (roommate_of b) := roommate_of_valid hvb
          obtain ⟨hocc, hfree⟩ := admit_roommate_check_none hvrm heq
          refine ⟨hvb, hvac, hage', hocc, hfree, ?_⟩
          simp only [] at H
          split at H
          next hvip =>
            split at H
            next rb hrb =>
              split at H
              next hravail =>
                cases H
                rw [if_pos hvip]
              next hravail =>
                exfalso
                rw [getBed_eq_some hvrm] at hrb
                have hrbv : rb = (setBed h b (.Occupied p)).beds (roommate_of b) := by
                  simpa using hrb.symm
                rw [beds_setBed, if_neg (roommate_of_ne hvb), hfree hvip] at hrbv
                subst hrbv
                simp [BedState.is_available] at hravail
            next hrb =>
              exfalso
              rw [getBed_eq_some hvrm] at hrb
              cases hrb
          next hvip =>
            cases H
            rw [if_neg hvip]

theorem admit_err_state {h : Hospital} {p : Patient} {b : Nat} {e : String} {h'' : Hospital}
    (H : admit_patient h p b = .err e h'') : h'' = h := by
  unfold admit_patient at H
  split at H
  next hg =>
    cases H
    rfl
  next bedSt hg =>
    split at H
    next havail =>
      cases H
      rfl
    next havail =>
      split at H
      next hage =>
        cases H
        rfl
      next hage =>
        split at H
        next e' heq =>
          cases H
          rfl
        next heq =>
          simp only [] at H
          split at H
          next hvip =>
            split at H
            next rb hrb =>
              split at H
              · exact RResult.noConfusion H
              · exact RResult.noConfusion H
            next hrb => exact RResult.noConfusion H
          next hvip => exact RResult.noConfusion H

/-! ## Characterization of `move_patient` -/

theorem freeAndUnblock_not_vip {h : Hospital} {bx : Nat} {x : Patient}
    (hv : (x.is_infected || x.is_vip) = false) :
    freeAndUnblock h bx x = setBed h bx .Vacant := by
  unfold freeAndUnblock
  simp only []
  rw [if_neg (by simp [hv])]

theorem freeAndUnblock_vip {h : Hospital} {bx : Nat} {x : Patient}
    (hv : (x.is_infected || x.is_vip) = true) (hvb : validBed bx) :
    freeAndUnblock h bx x =
      (if (h.beds (roommate_of bx)).is_blocked = true
       then setBed (setBed h bx .Vacant) (roommate_of bx) .Vacant
       else setBed h bx .Vacant) := by
  unfold freeAndUnblock
  simp only []
  rw [if_pos hv, getBed_eq_some (roommate_of_valid hvb)]
  simp only [beds_setBed, if_neg (roommate_of_ne hvb)]

theorem rollbackMove_not_vip {h : Hospital} {bx : Nat} {x : Patient}
    (hv : (x.is_infected || x.is_vip) = false) :
    rollbackMove h bx x = setBed h bx (.Occupied x) := by
  unfold rollbackMove
  simp only []
  rw [if_neg (by simp [hv])]

theorem rollbackMove_vip {h : Hospital} {bx : Nat} {x : Patient}
    (hv : (x.is_infected || x.is_vip) = true) (hvb : validBed bx) :
    rollbackMove h bx x =
      (if (h.beds (roommate_of bx)).is_available = true
       then setBed (setBed h bx (.Occupied x)) (roommate_of bx) .Blocked
       else setBed h bx (.Occupied x)) := by
  unfold rollbackMove
  simp only []
  rw [if_pos hv, getBed_eq_some (roommate_of_valid hvb)]
  simp only [beds_setBed, if_neg (roommate_of_ne hvb)]

theorem move_ok_char {h : Hospital} {c d : Nat} {h' : Hospital}
    (H : move_patient h c d = .ok h') :
    ∃ bx x, findPatient h c = some (bx, x) ∧
      admit_patient (freeAndUnblock h bx x) x d = .ok h' := by
  unfold move_patient at H
  split at H
  next hf => exact RResult.noConfusion H
  next bx x hf =>
    split at H
    next h3 hadm =>
      cases H
      exact ⟨bx, x, hf, hadm⟩
    next e' h3 hadm => exact RResult.noConfusion H

theorem move_err_char {h : Hospital} {c d : Nat} {e : String} {h' : Hospital}
    (H : move_patient h c d = .err e h') :
    (findPatient h c = none ∧ e = "Patient not found" ∧ h' = h) ∨
    (∃ bx x, findPatient h c = some (bx, x) ∧
      admit_patient (freeAndUnblock h bx x) x d = .err e (freeAndUnblock h bx x) ∧
      h' = rollbackMove (freeAndUnblock h bx x) bx x) := by
  unfold move_patient at H
  split at H
  next hf =>
    cases H
    exact Or.inl ⟨hf, rfl, rfl⟩
  next bx x hf =>
    split at H
    next h3 hadm => exact RResult.noConfusion H
    next e' h3 hadm =>
      cases H
      have h3eq := admit_err_state hadm
      subst h3eq
      exact Or.inr ⟨bx, x, hf, hadm, rfl⟩

/-- Exact rollback of a failed move, provided the moving patient, when VIP or infectious,
does not have a `Vacant` roommate bed at call time. -/
theorem move_err_restores {h : Hospital} {r d : Nat} {n : Nat} {p : Patient} {e : String}
    {h' : Hospital} (hf : findPatient h r = some (n, p))
    (hnv : (p.is_infected || p.is_vip) = true → h.beds (roommate_of n) ≠ .Vacant)
    (H : move_patient h r d = .err e h') : h' = h := by
  obtain ⟨hvn, hocc, hcrn⟩ := findPatient_sound hf
  have hvrm : validBed (roommate_of n) := roommate_of_valid hvn
  have hne : roommate_of n ≠ n := roommate_of_ne hvn
  rcases move_err_char H with ⟨hnone, _, _⟩ | ⟨bx, x, hf', hadm, hrb⟩
  · rw [hf] at hnone
    cases hnone
  · rw [hf] at hf'
    have hpair : bx = n ∧ x = p := by
      have := hf'.symm
      simpa using this
    rw [hpair.1, hpair.2] at hrb
    subst hrb
    by_cases hvip : (p.is_infected || p.is_vip) = true
    · cases hrm : h.beds (roommate_of n) with
      | Vacant => exact absurd hrm (hnv hvip)
      | Blocked =>
        have e1 : freeAndUnblock h n p =
            setBed (setBed h n .Vacant) (roommate_of n) .Vacant := by
          rw [freeAndUnblock_vip hvip hvn, hrm]
          rfl
        have e2 : (setBed (setBed h n BedState.Vacant) (roommate_of n)
            BedState.Vacant).beds (roommate_of n) = BedState.Vacant := by
          simp
        have e3 : rollbackMove (setBed (setBed h n .Vacant) (roommate_of n) .Vacant) n p =
            setBed (setBed (setBed (setBed h n .Vacant) (roommate_of n) .Vacant) n
              (.Occupied p)) (roommate_of n) .Blocked := by
          rw [rollbackMove_vip hvip hvn, e2]
          rfl
        rw [e1, e3]
        apply Hospital.beds_ext
        intro m
        simp only [beds_setBed]
        split_ifs with h1 h2
        · subst h1
          exact hrm.symm
        · subst h2
          exact hocc.symm
        · rfl
      | Occupied y =>
        have e1 : freeAndUnblock h n p = setBed h n .Vacant := by
          rw [freeAndUnblock_vip hvip hvn, hrm]
          rfl
        have e2 : (setBed h n BedState.Vacant).beds (roommate_of n) =
            BedState.Occupied y := by
          simp only [beds_setBed, if_neg hne]
          exact hrm
        have e3 : rollbackMove (setBed h n .Vacant) n p =
            setBed (setBed h n .Vacant) n (.Occupied p) := by
          rw [rollbackMove_vip hvip hvn, e2]
          rfl
        rw [e1, e3]
        apply Hospital.beds_ext
        intro m
        simp only [beds_setBed]
        split_ifs with h1
        · subst h1
          exact hocc.symm
        · rfl
    · have hvip' : (p.is_infected || p.is_vip) = false := by
        simpa using hvip
      rw [freeAndUnblock_not_vip hvip', rollbackMove_not_vip hvip']
      apply Hospital.beds_ext
      intro m
      simp only [beds_setBed]
      split_ifs with h1
      · subst h1
        exact hocc.symm
      · rfl

/-! ## Characterization of `get_available_beds_for_patient` -/

theorem get_available_sorted (h : Hospital) (p : Patient) :
    List.Sorted (· < ·) (get_available_beds_for_patient h p) :=
  List.Pairwise.filter _ allBeds_sorted

theorem mem_get_available {h : Hospital} {p : Patient} {b : Nat} :
    b ∈ get_available_beds_for_patient h p ↔ b ∈ allBeds ∧ bed_available_for h p b = true := by
  unfold get_available_beds_for_patient
  exact List.mem_filter

theorem head?_mem {α : Type} {l : List α} {a : α} (H : l.head? = some a) : a ∈ l := by
  cases l with
  | nil => cases H
  | cons x t =>
    obtain rfl : x = a := by simpa using H
    exact List.mem_cons_self x t

theorem bed_available_for_iff {h : Hospital} {p : Patient} {b : Nat} (v : validBed b) :
    bed_available_for h p b = true ↔
      h.beds b = .Vacant ∧ (13 ≤ p.age ∨ b / 100 = 5) ∧
      (∀ q, h.beds (roommate_of b) = .Occupied q →
        p.gender = q.gender ∧ ((p.age < 16) ↔ (q.age < 16)) ∧
        q.is_infected = false ∧ q.is_vip = false) ∧
      ((p.is_infected || p.is_vip) = true → h.beds (roommate_of b) = .Vacant) := by
  unfold bed_available_for
  rw [getBed_eq_some v, getBed_eq_some (roommate_of_valid v)]
  cases hb : h.beds b with
  | Occupied q => simp [BedState.is_available]
  | Blocked => simp [BedState.is_available]
  | Vacant =>
    cases hrm : h.beds (roommate_of b) with
    | Occupied q =>
      simp [BedState.is_available, Nat.not_lt]
      tauto
    | Vacant =>
      simp [BedState.is_available, Nat.not_lt]
    | Blocked =>
      simp [BedState.is_available, Nat.not_lt]

/-! ## The adjacent-bed blocking invariant -/

/-- Every occupied bed holding a VIP or infectious patient has its roommate bed `Blocked`
(spec §3, global invariants). -/
def BlockInv (h : Hospital) : Prop :=
  ∀ n ∈ allBeds, ∀ p : Patient, h.beds n = .Occupied p →
    (p.is_infected || p.is_vip) = true → h.beds (roommate_of n) = .Blocked

/-- Clinical record numbers are unique among currently admitted patients (spec §3:
"must be unique among currently-admitted patients"). -/
def UniqueCRN (h : Hospital) : Prop :=
  ∀ n1 ∈ allBeds, ∀ n2 ∈ allBeds, ∀ p1 p2 : Patient,
    h.beds n1 = .Occupied p1 → h.beds n2 = .Occupied p2 →
    p1.clinical_record_number = p2.clinical_record_number → n1 = n2

/-- Ward states reachable from `Hospital::new` through successful public operations other
than `switch_patients`, admitting only patients whose clinical record number is not already
present (the spec's CRN uniqueness assumption). -/
inductive ReachableNS : Hospital → Prop where
  | init : ReachableNS Hospital.new
  | admitted {h h' : Hospital} {p : Patient} {b : Nat} : ReachableNS h →
      findPatient h p.clinical_record_number = none →
      admit_patient h p b = .ok h' → ReachableNS h'
  | move {h h' : Hospital} {c d : Nat} : ReachableNS h →
      move_patient h c d = .ok h' → ReachableNS h'
  | setVip {h h' : Hospital} {c : Nat} {v : Bool} : ReachableNS h →
      set_patient_vip h c v = .ok h' → ReachableNS h'
  | markInfected {h h' : Hospital} {c : Nat} : ReachableNS h →
      mark_patient_as_infected h c = .ok h' → ReachableNS h'
  | unmarkInfected {h h' : Hospital} {c : Nat} : ReachableNS h →
      unmark_patient_as_infected h c = .ok h' → ReachableNS h'
  | discharge {h h' : Hospital} {c : Nat} : ReachableNS h →
      discharge_patient h c = .ok h' → ReachableNS h'

theorem findPatient_eq_of_unique {h : Hospital} {n : Nat} {q : Patient}
    (U : UniqueCRN h) (hn : n ∈ allBeds) (hq : h.beds n = .Occupied q) :
    findPatient h q.clinical_record_number = some (n, q) := by
  cases H : findPatient h q.clinical_record_number with
  | none => exact absurd rfl (findPatient_eq_none.mp H n hn q hq)
  | some v =>
    obtain ⟨m, pm⟩ := v
    obtain ⟨hm, hpm, hcrn⟩ := findPatientAux_sound H
    have hmn : m = n := U m hm n hn pm q hpm hq hcrn
    subst hmn
    rw [hpm] at hq
    obtain rfl : pm = q := by simpa using hq
    rfl

theorem occ_setBed {h : Hospital} {n : Nat} {s : BedState} {m : Nat} {x : Patient}
    (H : (setBed h n s).beds m = .Occupied x) :
    (m = n ∧ s = .Occupied x) ∨ (m ≠ n ∧ h.beds m = .Occupied x) := by
  simp only [beds_setBed] at H
  by_cases hm : m = n
  · rw [if_pos hm] at H
    exact Or.inl ⟨hm, H⟩
  · rw [if_neg hm] at H
    exact Or.inr ⟨hm, H⟩

theorem blockInv_admitted {h h' : Hospital} {p : Patient} {b : Nat}
    (inv : BlockInv h) (H : admit_patient h p b = .ok h') : BlockInv h' := by
  obtain ⟨hvb, hvac, -, hocc, hfree, hstate⟩ := admit_ok_char H
  subst hstate
  intro n hn q hq hvip
  have hvn : validBed n := mem_allBeds.mp hn
  by_cases hvipP : (p.is_infected || p.is_vip) = true
  · rw [if_pos hvipP] at hq ⊢
    simp only [beds_setBed] at hq ⊢
    by_cases h1 : n = roommate_of b
    · rw [if_pos h1] at hq
      cases hq
    · rw [if_neg h1] at hq
      by_cases h2 : n = b
      · subst h2
        rw [if_pos rfl] at hq
        rw [if_pos rfl]
      · rw [if_neg h2] at hq
        have hB := inv n hn q hq hvip
        by_cases h3 : roommate_of n = roommate_of b
        · rw [if_pos h3]
        · rw [if_neg h3]
          by_cases h4 : roommate_of n = b
          · exact absurd (eq_roommate_of_of hvn h4) h1
          · rw [if_neg h4]
            exact hB
  · rw [if_neg hvipP] at hq ⊢
    simp only [beds_setBed] at hq ⊢
    by_cases h2 : n = b
    · subst h2
      rw [if_pos rfl] at hq
      obtain rfl : p = q := by simpa using hq
      exact absurd hvip (by simp [hvipP])
    · rw [if_neg h2] at hq
      have hB := inv n hn q hq hvip
      by_cases h4 : roommate_of n = b
      · exfalso
        have hnb : n = roommate_of b := eq_roommate_of_of hvn h4
        rw [hnb] at hq
        obtain ⟨-, -, hqi, hqv, -⟩ := hocc q hq
        rw [hqi, hqv] at hvip
        cases hvip
      · rw [if_neg h4]
        exact hB

theorem uniqueCRN_admitted {h h' : Hospital} {p : Patient} {b : Nat} (U : UniqueCRN h)
    (fresh : findPatient h p.clinical_record_number = none)
    (H : admit_patient h p b = .ok h') : UniqueCRN h' := by
  obtain ⟨hvb, hvac, -, -, -, hstate⟩ := admit_ok_char H
  subst hstate
  have fresh' := findPatient_eq_none.mp fresh
  have hOcc : ∀ m x, (if (p.is_infected || p.is_vip) = true
        then setBed (setBed h b (.Occupied p)) (roommate_of b) .Blocked
        else setBed h b (.Occupied p)).beds m = .Occupied x →
      (m = b ∧ x = p) ∨ (m ≠ b ∧ h.beds m = .Occupied x) := by
    intro m x hm
    by_cases hv : (p.is_infected || p.is_vip) = true
    · rw [if_pos hv] at hm
      rcases occ_setBed hm with ⟨-, hs⟩ | ⟨-, hm'⟩
      · cases hs
      · rcases occ_setBed hm' with ⟨he, hs⟩ | ⟨he, hm''⟩
        · obtain rfl : p = x := by simpa using hs
          exact Or.inl ⟨he, rfl⟩
        · exact Or.inr ⟨he, hm''⟩
    · rw [if_neg hv] at hm
      rcases occ_setBed hm with ⟨he, hs⟩ | ⟨he, hm'⟩
      · obtain rfl : p = x := by simpa using hs
        exact Or.inl ⟨he, rfl⟩
      · exact Or.inr ⟨he, hm'⟩
  intro n1 h1 n2 h2 p1 p2 hp1 hp2 hcrn
  rcases hOcc n1 p1 hp1 with ⟨e1, rfl⟩ | ⟨e1, ho1⟩
  · rcases hOcc n2 p2 hp2 with ⟨e2, rfl⟩ | ⟨e2, ho2⟩
    · rw [e1, e2]
    · exact absurd hcrn.symm (fresh' n2 h2 p2 ho2)
  · rcases hOcc n2 p2 hp2 with ⟨e2, rfl⟩ | ⟨e2, ho2⟩
    · exact absurd hcrn (fresh' n1 h1 p1 ho1)
    · exact U n1 h1 n2 h2 p1 p2 ho1 ho2 hcrn

theorem roommate_not_vipinf {h : Hospital} {n : Nat} {p0 q : Patient} (inv : BlockInv h)
    (hvn : validBed n) (hocc : h.beds n = .Occupied p0)
    (hq : h.beds (roommate_of n) = .Occupied q) : (q.is_infected || q.is_vip) = false := by
  by_contra hc
  rw [Bool.not_eq_false] at hc
  have hB := inv (roommate_of n) (mem_allBeds.mpr (roommate_of_valid hvn)) q hq hc
  rw [roommate_of_roommate hvn, hocc] at hB
  cases hB

theorem uniqueCRN_replace {h : Hospital} {n : Nat} {p0 p' : Patient} (U : UniqueCRN h)
    (hn : n ∈ allBeds) (hocc : h.beds n = .Occupied p0)
    (hcrn : p'.clinical_record_number = p0.clinical_record_number) :
    UniqueCRN (setBed h n (.Occupied p')) := by
  intro n1 hm1 n2 hm2 p1 p2 hp1 hp2 hc
  rcases occ_setBed hp1 with ⟨e1, hs1⟩ | ⟨e1, ho1⟩
  · obtain rfl : p' = p1 := by simpa using hs1
    rcases occ_setBed hp2 with ⟨e2, hs2⟩ | ⟨e2, ho2⟩
    · rw [e1, e2]
    · have h2n : n2 = n := U n2 hm2 n hn p2 p0 ho2 hocc (hc.symm.trans hcrn)
      rw [e1, h2n]
  · rcases occ_setBed hp2 with ⟨e2, hs2⟩ | ⟨e2, ho2⟩
    · obtain rfl : p' = p2 := by simpa using hs2
      have h1n : n1 = n := U n1 hm1 n hn p1 p0 ho1 hocc (hc.trans hcrn)
      rw [e2, h1n]
    · exact U n1 hm1 n2 hm2 p1 p2 ho1 ho2 hc

theorem blockInv_move {h h' : Hospital} {c d : Nat}
    (inv : BlockInv h) (H : move_patient h c d = .ok h') : BlockInv h' := by
  obtain ⟨bx, x, hf, hadm⟩ := move_ok_char H
  obtain ⟨hvbx, hxocc, hxcrn⟩ := findPatient_sound hf
  obtain ⟨hvd, hmidvac, -, hmidocc, hmidfree, hstate⟩ := admit_ok_char hadm
  by_cases hxv : (x.is_infected || x.is_vip) = true
  · rw [if_pos hxv] at hstate
    by_cases hbl : h.beds (roommate_of bx) = .Blocked
    · -- branch A: old roommate bed unblocked
      have hmid : freeAndUnblock h bx x =
          setBed (setBed h bx .Vacant) (roommate_of bx) .Vacant := by
        rw [freeAndUnblock_vip hxv hvbx, hbl]
        rfl
      rw [hmid] at hstate
      subst hstate
      intro n hn q hq hvip
      have hvn : validBed n := mem_allBeds.mp hn
      rcases occ_setBed hq with ⟨-, hs⟩ | ⟨hne_rd, hq1⟩
      · cases hs
      rcases occ_setBed hq1 with ⟨rfl, hs⟩ | ⟨hne_d, hq2⟩
      · obtain rfl : x = q := by simpa using hs
        simp [beds_setBed]
      rcases occ_setBed hq2 with ⟨-, hs⟩ | ⟨hne_rbx, hq3⟩
      · cases hs
      rcases occ_setBed hq3 with ⟨-, hs⟩ | ⟨hne_bx, hq4⟩
      · cases hs
      have hB := inv n hn q hq4 hvip
      simp only [beds_setBed]
      by_cases h1 : roommate_of n = roommate_of d
      · rw [if_pos h1]
      · rw [if_neg h1]
        by_cases h2 : roommate_of n = d
        · exact absurd (eq_roommate_of_of hvn h2) hne_rd
        · rw [if_neg h2]
          by_cases h3 : roommate_of n = roommate_of bx
          · exfalso
            have : n = roommate_of (roommate_of bx) := eq_roommate_of_of hvn h3
            rw [roommate_of_roommate hvbx] at this
            exact hne_bx this
          · rw [if_neg h3]
            by_cases h4 : roommate_of n = bx
            · exact absurd (eq_roommate_of_of hvn h4) hne_rbx
            · rw [if_neg h4]
              exact hB
    · -- branch B: old roommate bed left as is
      have hmid : freeAndUnblock h bx x = setBed h bx .Vacant := by
        rw [freeAndUnblock_vip hxv hvbx]
        rw [if_neg (by
          intro hbk
          exact hbl (is_blocked_iff.mp (by
            simpa [beds_setBed, if_neg (roommate_of_ne hvbx)] using hbk)))]
      rw [hmid] at hstate
      subst hstate
      intro n hn q hq hvip
      have hvn : validBed n := mem_allBeds.mp hn
      rcases occ_setBed hq with ⟨-, hs⟩ | ⟨hne_rd, hq1⟩
      · cases hs
      rcases occ_setBed hq1 with ⟨rfl, hs⟩ | ⟨hne_d, hq2⟩
      · obtain rfl : x = q := by simpa using hs
        simp [beds_setBed]
      rcases occ_setBed hq2 with ⟨-, hs⟩ | ⟨hne_bx, hq3⟩
      · cases hs
      have hB := inv n hn q hq3 hvip
      simp only [beds_setBed]
      by_cases h1 : roommate_of n = roommate_of d
      · rw [if_pos h1]
      · rw [if_neg h1]
        by_cases h2 : roommate_of n = d
        · exact absurd (eq_roommate_of_of hvn h2) hne_rd
        · rw [if_neg h2]
          by_cases h4 : roommate_of n = bx
          · exfalso
            rw [h4, hxocc] at hB
            cases hB
          · rw [if_neg h4]
            exact hB
  · -- branch C: patient moved is neither infectious nor VIP
    rw [if_neg hxv] at hstate
    have hxv' : (x.is_infected || x.is_vip) = false := by simpa using hxv
    rw [freeAndUnblock_not_vip hxv'] at hstate hmidvac
    subst hstate
    intro n hn q hq hvip
    have hvn : validBed n := mem_allBeds.mp hn
    rcases occ_setBed hq with ⟨rfl, hs⟩ | ⟨hne_d, hq1⟩
    · obtain rfl : x = q := by simpa using hs
      rw [hxv'] at hvip
      cases hvip
    rcases occ_setBed hq1 with ⟨-, hs⟩ | ⟨hne_bx, hq2⟩
    · cases hs
    have hB := inv n hn q hq2 hvip
    simp only [beds_setBed]
    by_cases h2 : roommate_of n = d
    · exfalso
      simp only [beds_setBed] at hmidvac
      by_cases hdb : d = bx
      · rw [h2, hdb, hxocc] at hB
        cases hB
      · rw [if_neg hdb] at hmidvac
        rw [h2, hmidvac] at hB
        cases hB
    · rw [if_neg h2]
      by_cases h4 : roommate_of n = bx
      · exfalso
        rw [h4, hxocc] at hB
        cases hB
      · rw [if_neg h4]
        exact hB

theorem uniqueCRN_move {h h' : Hospital} {c d : Nat}
    (U : UniqueCRN h) (H : move_patient h c d = .ok h') : UniqueCRN h' := by
  obtain ⟨bx, x, hf, hadm⟩ := move_ok_char H
  obtain ⟨hvbx, hxocc, hxcrn⟩ := findPatient_sound hf
  obtain ⟨hvd, hmidvac, -, -, -, hstate⟩ := admit_ok_char hadm
  have hOccMid : ∀ m y, (freeAndUnblock h bx x).beds m = .Occupied y →
      m ≠ bx ∧ h.beds m = .Occupied y := by
    intro m y hm
    unfold freeAndUnblock at hm
    simp only [] at hm
    by_cases hxv : (x.is_infected || x.is_vip) = true
    · rw [if_pos hxv] at hm
      revert hm
      split
      next old_rm hget =>
        split
        · intro hm
          rcases occ_setBed hm with ⟨-, hs⟩ | ⟨-, hm'⟩
          · cases hs
          · rcases occ_setBed hm' with ⟨-, hs⟩ | ⟨hne, hm''⟩
            · cases hs
            · exact ⟨hne, hm''⟩
        · intro hm
          rcases occ_setBed hm with ⟨-, hs⟩ | ⟨hne, hm'⟩
          · cases hs
          · exact ⟨hne, hm'⟩
      next hget =>
        intro hm
        rcases occ_setBed hm with ⟨-, hs⟩ | ⟨hne, hm'⟩
        · cases hs
        · exact ⟨hne, hm'⟩
    · rw [if_neg hxv] at hm
      rcases occ_setBed hm with ⟨-, hs⟩ | ⟨hne, hm'⟩
      · cases hs
      · exact ⟨hne, hm'⟩
  have hOcc : ∀ m y, h'.beds m = .Occupied y →
      (m = d ∧ y = x) ∨ (m ≠ bx ∧ h.beds m = .Occupied y) := by
    intro m y hm
    rw [hstate] at hm
    by_cases hxv : (x.is_infected || x.is_vip) = true
    · rw [if_pos hxv] at hm
      rcases occ_setBed hm with ⟨-, hs⟩ | ⟨-, hm'⟩
      · cases hs
      · rcases occ_setBed hm' with ⟨he, hs⟩ | ⟨-, hm''⟩
        · obtain rfl : x = y := by simpa using hs
          exact Or.inl ⟨he, rfl⟩
        · exact Or.inr (hOccMid m y hm'')
    · rw [if_neg hxv] at hm
      rcases occ_setBed hm with ⟨he, hs⟩ | ⟨-, hm'⟩
      · obtain rfl : x = y := by simpa using hs
        exact Or.inl ⟨he, rfl⟩
      · exact Or.inr (hOccMid m y hm')
  intro n1 h1 n2 h2 p1 p2 hp1 hp2 hcrn
  rcases hOcc n1 p1 hp1 with ⟨e1, rfl⟩ | ⟨e1, ho1⟩
  · rcases hOcc n2 p2 hp2 with ⟨e2, rfl⟩ | ⟨e2, ho2⟩
    · rw [e1, e2]
    · exfalso
      have := U n2 h2 bx (mem_allBeds.mpr hvbx) p2 p1 ho2 hxocc hcrn.symm
      exact e2 this
  · rcases hOcc n2 p2 hp2 with ⟨e2, rfl⟩ | ⟨e2, ho2⟩
    · exfalso
      have := U n1 h1 bx (mem_allBeds.mpr hvbx) p1 p2 ho1 hxocc hcrn
      exact e1 this
    · exact U n1 h1 n2 h2 p1 p2 ho1 ho2 hcrn

theorem blockInv_setVip {h h' : Hospital} {c : Nat} {v : Bool}
    (inv : BlockInv h) (U : UniqueCRN h) (H : set_patient_vip h c v = .ok h') :
    BlockInv h' := by
  unfold set_patient_vip at H
  split at H
  next hf => exact RResult.noConfusion H
  next n0 p0 hf =>
    obtain ⟨hvn0, hocc0, hcrn0⟩ := findPatient_sound hf
    have hn0mem : n0 ∈ allBeds := mem_allBeds.mpr hvn0
    have hvrm : validBed (roommate_of n0) := roommate_of_valid hvn0
    have hrm_ne : roommate_of n0 ≠ n0 := roommate_of_ne hvn0
    split at H
    next hsame =>
      cases H
      exact inv
    next hdiff =>
      simp only [] at H
      have h1rm : (setBed h n0 (.Occupied { p0 with is_vip := v })).beds (roommate_of n0) =
          h.beds (roommate_of n0) := by
        simp [hrm_ne]
      split at H
      next hvtrue =>
        -- turning the VIP flag on
        have hp0v : p0.is_vip = false := by
          cases hb : p0.is_vip
          · rfl
          · rw [hb, hvtrue] at hdiff
            exact absurd rfl hdiff
        split at H
        next e h2 hstep => exact RResult.noConfusion H
        next h2 hstep =>
          -- final blocking of the roommate bed
          have hfinal : h' = setBed h2 (roommate_of n0) .Blocked := by
            rw [getBed_eq_some hvrm] at H
            cases H
            rfl
          -- analyse the relocation step
          revert hstep
          split
          next roommate hrm_occ =>
            -- the roommate bed is occupied: relocation happens
            have hq : h.beds (roommate_of n0) = .Occupied roommate := by
              rw [getBed_eq_some hvrm, h1rm] at hrm_occ
              simpa using hrm_occ
            have hqniv : (roommate.is_infected || roommate.is_vip) = false :=
              roommate_not_vipinf inv hvn0 hocc0 hq
            split
            next dest hdest =>
              intro hmv
              -- dest is the first available bed for the roommate, in the flagged state
              have hdest_mem := head?_mem hdest
              obtain ⟨hdmem, hdava⟩ := mem_get_available.mp hdest_mem
              have hvdest : validBed dest := mem_allBeds.mp hdmem
              obtain ⟨hdvac1, -, -, -⟩ := (bed_available_for_iff hvdest).mp hdava
              have hdest_ne_n0 : dest ≠ n0 := by
                intro e
                rw [e] at hdvac1
                simp [beds_setBed] at hdvac1
              have hdvac : h.beds dest = .Vacant := by
                have := hdvac1
                simp only [beds_setBed, if_neg hdest_ne_n0] at this
                exact this
              have hdest_ne_rm : dest ≠ roommate_of n0 := by
                intro e
                rw [e, h1rm, hq] at hdvac1
                cases hdvac1
              -- identify the patient the inner move_patient finds
              have hU1 : UniqueCRN (setBed h n0 (.Occupied { p0 with is_vip := v })) :=
                uniqueCRN_replace U hn0mem hocc0 rfl
              have h1rm_occ : (setBed h n0 (.Occupied { p0 with is_vip := v })).beds
                  (roommate_of n0) = .Occupied roommate := by
                rw [h1rm, hq]
              have hfind1 := findPatient_eq_of_unique hU1 (mem_allBeds.mpr hvrm) h1rm_occ
              obtain ⟨bx, x, hfm, hadm⟩ := move_ok_char hmv
              rw [hfind1] at hfm
              have hpair : roommate_of n0 = bx ∧ roommate = x := by simpa using hfm
              rw [← hpair.1, ← hpair.2] at hadm
              rw [freeAndUnblock_not_vip hqniv] at hadm
              obtain ⟨-, hadvac, -, -, -, hstate2⟩ := admit_ok_char hadm
              rw [if_neg (by simp [hqniv])] at hstate2
              -- the destination chosen by the code is dest itself
              have hdd : (setBed (setBed h n0 (.Occupied { p0 with is_vip := v }))
                  (roommate_of n0) .Vacant).beds dest = .Vacant := hadvac
              subst hstate2
              subst hfinal
              -- final state fully explicit; prove the invariant pointwise
              intro n hn q hq' hvip
              have hvn : validBed n := mem_allBeds.mp hn
              rcases occ_setBed hq' with ⟨-, hs⟩ | ⟨hne_rm, hq1⟩
              · cases hs
              rcases occ_setBed hq1 with ⟨rfl, hs⟩ | ⟨hne_d, hq2⟩
              · obtain rfl : roommate = q := by simpa using hs
                rw [hvip] at hqniv
                cases hqniv
              rcases occ_setBed hq2 with ⟨-, hs⟩ | ⟨-, hq3⟩
              · cases hs
              rcases occ_setBed hq3 with ⟨rfl, hs⟩ | ⟨hne_n0, hq4⟩
              · simp [beds_setBed]
              · have hB := inv n hn q hq4 hvip
                simp only [beds_setBed]
                by_cases g1 : roommate_of n = roommate_of n0
                · rw [if_pos g1]
                · rw [if_neg g1]
                  by_cases g2 : roommate_of n = dest
                  · exfalso
                    rw [g2, hdvac] at hB
                    cases hB
                  · rw [if_neg g2, if_neg g1]
                    by_cases g3 : roommate_of n = n0
                    · exfalso
                      rw [g3, hocc0] at hB
                      cases hB
                    · rw [if_neg g3]
                      exact hB
            next hdest =>
              intro hmv
              exact RResult.noConfusion hmv
          next hrm_nocc =>
            -- the roommate bed is not occupied: block it directly
            intro hstep
            have h2eq : h2 = setBed h n0 (.Occupied { p0 with is_vip := v }) := by
              cases hstep
              rfl
            subst h2eq
            subst hfinal
            intro n hn q hq' hvip
            have hvn : validBed n := mem_allBeds.mp hn
            rcases occ_setBed hq' with ⟨-, hs⟩ | ⟨hne_rm, hq1⟩
            · cases hs
            rcases occ_setBed hq1 with ⟨rfl, hs⟩ | ⟨hne_n0, hq2⟩
            · simp [beds_setBed]
            · have hB := inv n hn q hq2 hvip
              simp only [beds_setBed]
              by_cases g1 : roommate_of n = roommate_of n0
              · rw [if_pos g1]
              · rw [if_neg g1]
                by_cases g3 : roommate_of n = n0
                · exfalso
                  rw [g3, hocc0] at hB
                  cases hB
                · rw [if_neg g3]
                  exact hB
      next hvfalse =>
        -- turning the VIP flag off
        have hveq : v = false := by
          cases v
          · rfl
          · exact absurd rfl hvfalse
        subst hveq
        have hp0v : p0.is_vip = true := by
          cases hb : p0.is_vip
          · rw [hb] at hdiff
            exact absurd rfl hdiff
          · rfl
        have hp0vipinf : (p0.is_infected || p0.is_vip) = true := by simp [hp0v]
        have hBrm : h.beds (roommate_of n0) = .Blocked := inv n0 hn0mem p0 hocc0 hp0vipinf
        split at H
        next hinfF =>
          -- not infectious: possibly unblock the roommate bed
          split at H
          next rm_bed hrm_bed =>
            split at H
            next hbl =>
              cases H
              -- h' = setBed h1 rm Vacant
              intro n hn q hq' hvip
              have hvn : validBed n := mem_allBeds.mp hn
              rcases occ_setBed hq' with ⟨-, hs⟩ | ⟨hne_rm, hq1⟩
              · cases hs
              rcases occ_setBed hq1 with ⟨rfl, hs⟩ | ⟨hne_n0, hq2⟩
              · exfalso
                obtain rfl : { p0 with is_vip := false } = q := by simpa using hs
                simp only [Bool.or_eq_true] at hvip
                rcases hvip with hvip | hvip
                · rw [show ({ p0 with is_vip := false } : Patient).is_infected =
                      p0.is_infected from rfl] at hvip
                  simp [hvip] at hinfF
                · cases hvip
              · have hB := inv n hn q hq2 hvip
                simp only [beds_setBed]
                by_cases g1 : roommate_of n = roommate_of n0
                · exfalso
                  have : n = roommate_of (roommate_of n0) := eq_roommate_of_of hvn g1
                  rw [roommate_of_roommate hvn0] at this
                  exact hne_n0 this
                · rw [if_neg g1]
                  by_cases g3 : roommate_of n = n0
                  · exfalso
                    rw [g3, hocc0] at hB
                    cases hB
                  · rw [if_neg g3]
                    exact hB
            next hbl =>
              exfalso
              rw [getBed_eq_some hvrm, h1rm, hBrm] at hrm_bed
              obtain rfl : rm_bed = BedState.Blocked := by simpa using hrm_bed.symm
              simp [BedState.is_blocked] at hbl
          next hrm_bed =>
            rw [getBed_eq_some hvrm] at hrm_bed
            cases hrm_bed
        next hinfT =>
          -- still infectious: flag replaced in place only
          cases H
          intro n hn q hq' hvip
          have hvn : validBed n := mem_allBeds.mp hn
          rcases occ_setBed hq' with ⟨rfl, hs⟩ | ⟨hne_n0, hq2⟩
          · obtain rfl : { p0 with is_vip := false } = q := by simpa using hs
            rw [h1rm]
            exact hBrm
          · have hB := inv n hn q hq2 hvip
            simp only [beds_setBed]
            by_cases g3 : roommate_of n = n0
            · exfalso
              rw [g3, hocc0] at hB
              cases hB
            · rw [if_neg g3]
              exact hB

theorem uniqueCRN_setNonOcc {h : Hospital} {n : Nat} {s : BedState} (U : UniqueCRN h)
    (hs : ∀ y : Patient, s ≠ .Occupied y) : UniqueCRN (setBed h n s) := by
  intro n1 hm1 n2 hm2 p1 p2 hp1 hp2 hc
  rcases occ_setBed hp1 with ⟨-, hs1⟩ | ⟨-, ho1⟩
  · exact absurd hs1 (hs p1)
  rcases occ_setBed hp2 with ⟨-, hs2⟩ | ⟨-, ho2⟩
  · exact absurd hs2 (hs p2)
  exact U n1 hm1 n2 hm2 p1 p2 ho1 ho2 hc

theorem uniqueCRN_setVip {h h' : Hospital} {c : Nat} {v : Bool}
    (inv : BlockInv h) (U : UniqueCRN h) (H : set_patient_vip h c v = .ok h') :
    UniqueCRN h' := by
  unfold set_patient_vip at H
  split at H
  next hf => exact RResult.noConfusion H
  next n0 p0 hf =>
    obtain ⟨hvn0, hocc0, hcrn0⟩ := findPatient_sound hf
    have hn0mem : n0 ∈ allBeds := mem_allBeds.mpr hvn0
    have hvrm : validBed (roommate_of n0) := roommate_of_valid hvn0
    have hrm_ne : roommate_of n0 ≠ n0 := roommate_of_ne hvn0
    have hrmmem : roommate_of n0 ∈ allBeds := mem_allBeds.mpr hvrm
    split at H
    next hsame =>
      cases H
      exact U
    next hdiff =>
      simp only [] at H
      have h1rm : (setBed h n0 (.Occupied { p0 with is_vip := v })).beds (roommate_of n0) =
          h.beds (roommate_of n0) := by
        simp [hrm_ne]
      have hUrep : UniqueCRN (setBed h n0 (.Occupied { p0 with is_vip := v })) :=
        uniqueCRN_replace U hn0mem hocc0 rfl
      split at H
      next hvtrue =>
        split at H
        next e h2 hstep => exact RResult.noConfusion H
        next h2 hstep =>
          have hfinal : h' = setBed h2 (roommate_of n0) .Blocked := by
            rw [getBed_eq_some hvrm] at H
            cases H
            rfl
          revert hstep
          split
          next roommate hrm_occ =>
            have hq : h.beds (roommate_of n0) = .Occupied roommate := by
              rw [getBed_eq_some hvrm, h1rm] at hrm_occ
              simpa using hrm_occ
            have hqniv : (roommate.is_infected || roommate.is_vip) = false :=
              roommate_not_vipinf inv hvn0 hocc0 hq
            split
            next dest hdest =>
              intro hmv
              have hdest_mem := head?_mem hdest
              obtain ⟨hdmem, hdava⟩ := mem_get_available.mp hdest_mem
              have hvdest : validBed dest := mem_allBeds.mp hdmem
              obtain ⟨hdvac1, -, -, -⟩ := (bed_available_for_iff hvdest).mp hdava
              have hdest_ne_n0 : dest ≠ n0 := by
                intro e
                rw [e] at hdvac1
                simp [beds_setBed] at hdvac1
              have hdvac : h.beds dest = .Vacant := by
                have := hdvac1
                simp only [beds_setBed, if_neg hdest_ne_n0] at this
                exact this
              have hdest_ne_rm : dest ≠ roommate_of n0 := by
                intro e
                rw [e, h1rm, hq] at hdvac1
                cases hdvac1
              have h1rm_occ : (setBed h n0 (.Occupied { p0 with is_vip := v })).beds
                  (roommate_of n0) = .Occupied roommate := by
                rw [h1rm, hq]
              have hfind1 := findPatient_eq_of_unique hUrep hrmmem h1rm_occ
              obtain ⟨bx, x, hfm, hadm⟩ := move_ok_char hmv
              rw [hfind1] at hfm
              have hpair : roommate_of n0 = bx ∧ roommate = x := by simpa using hfm
              rw [← hpair.1, ← hpair.2] at hadm
              rw [freeAndUnblock_not_vip hqniv] at hadm
              obtain ⟨-, -, -, -, -, hstate2⟩ := admit_ok_char hadm
              rw [if_neg (by simp [hqniv])] at hstate2
              subst hstate2
              subst hfinal
              have hOcc : ∀ m y, (setBed (setBed (setBed (setBed h n0
                    (.Occupied { p0 with is_vip := v })) (roommate_of n0) .Vacant) dest
                    (.Occupied roommate)) (roommate_of n0) .Blocked).beds m = .Occupied y →
                  (m = n0 ∧ y = { p0 with is_vip := v }) ∨ (m = dest ∧ y = roommate) ∨
                  (m ≠ n0 ∧ m ≠ dest ∧ m ≠ roommate_of n0 ∧ h.beds m = .Occupied y) := by
                intro m y hm
                rcases occ_setBed hm with ⟨-, hs⟩ | ⟨g_rm, hm1⟩
                · cases hs
                rcases occ_setBed hm1 with ⟨gd, hs⟩ | ⟨g_d, hm2⟩
                · obtain rfl : roommate = y := by simpa using hs
                  exact Or.inr (Or.inl ⟨gd, rfl⟩)
                rcases occ_setBed hm2 with ⟨-, hs⟩ | ⟨-, hm3⟩
                · cases hs
                rcases occ_setBed hm3 with ⟨gn, hs⟩ | ⟨g_n0, hm4⟩
                · obtain rfl : { p0 with is_vip := v } = y := by simpa using hs
                  exact Or.inl ⟨gn, rfl⟩
                · exact Or.inr (Or.inr ⟨g_n0, g_d, g_rm, hm4⟩)
              intro n1 hm1 n2 hm2 p1 p2 hp1 hp2 hc
              have hcrnp : ({ p0 with is_vip := v } : Patient).clinical_record_number =
                  p0.clinical_record_number := rfl
              rcases hOcc n1 p1 hp1 with ⟨e1, f1⟩ | ⟨e1, f1⟩ | ⟨e1, f1', g1, ho1⟩
              · rcases hOcc n2 p2 hp2 with ⟨e2, f2⟩ | ⟨e2, f2⟩ | ⟨e2, f2', g2, ho2⟩
                · rw [e1, e2]
                · exfalso
                  rw [f1, f2] at hc
                  have := U n0 hn0mem (roommate_of n0) hrmmem p0 roommate hocc0 hq
                    (by rw [← hcrnp]; exact hc)
                  exact hrm_ne this.symm
                · exfalso
                  rw [f1] at hc
                  have := U n0 hn0mem n2 hm2 p0 p2 hocc0 ho2 (by rw [← hcrnp]; exact hc)
                  exact e2 this.symm
              · rcases hOcc n2 p2 hp2 with ⟨e2, f2⟩ | ⟨e2, f2⟩ | ⟨e2, f2', g2, ho2⟩
                · exfalso
                  rw [f1, f2] at hc
                  have := U n0 hn0mem (roommate_of n0) hrmmem p0 roommate hocc0 hq
                    (by rw [← hcrnp]; exact hc.symm)
                  exact hrm_ne this.symm
                · rw [e1, e2]
                · exfalso
                  rw [f1] at hc
                  have := U (roommate_of n0) hrmmem n2 hm2 roommate p2 hq ho2 hc
                  exact g2 this.symm
              · rcases hOcc n2 p2 hp2 with ⟨e2, f2⟩ | ⟨e2, f2⟩ | ⟨e2, f2', g2, ho2⟩
                · exfalso
                  rw [f2] at hc
                  have := U n1 hm1 n0 hn0mem p1 p0 ho1 hocc0 (hc.trans hcrnp)
                  exact e1 this
                · exfalso
                  rw [f2] at hc
                  have := U n1 hm1 (roommate_of n0) hrmmem p1 roommate ho1 hq hc
                  exact g1 this
                · exact U n1 hm1 n2 hm2 p1 p2 ho1 ho2 hc
            next hdest =>
              intro hmv
              exact RResult.noConfusion hmv
          next hrm_nocc =>
            intro hstep
            have h2eq : h2 = setBed h n0 (.Occupied { p0 with is_vip := v }) := by
              cases hstep
              rfl
            subst h2eq
            subst hfinal
            exact uniqueCRN_setNonOcc hUrep (fun y => by simp)
      next hvfalse =>
        split at H
        next hinfF =>
          split at H
          next rm_bed hrm_bed =>
            split at H
            next hbl =>
              cases H
              exact uniqueCRN_setNonOcc hUrep (fun y => by simp)
            next hbl =>
              cases H
              exact hUrep
          next hrm_bed =>
            rw [getBed_eq_some hvrm] at hrm_bed
            cases hrm_bed
        next hinfT =>
          cases H
          exact hUrep

theorem blockInv_mark {h h' : Hospital} {c : Nat}
    (inv : BlockInv h) (U : UniqueCRN h) (H : mark_patient_as_infected h c = .ok h') :
    BlockInv h' := by
  unfold mark_patient_as_infected at H
  split at H
  next hf => exact RResult.noConfusion H
  next n0 p0 hf =>
    obtain ⟨hvn0, hocc0, hcrn0⟩ := findPatient_sound hf
    have hn0mem : n0 ∈ allBeds := mem_allBeds.mpr hvn0
    have hvrm : validBed (roommate_of n0) := roommate_of_valid hvn0
    have hrm_ne : roommate_of n0 ≠ n0 := roommate_of_ne hvn0
    have hrmmem : roommate_of n0 ∈ allBeds := mem_allBeds.mpr hvrm
    split at H
    next hinf =>
      cases H
      exact inv
    next hinf =>
      simp only [] at H
      split at H
      next e h2 hstep => exact RResult.noConfusion H
      next h2 hstep =>
        revert hstep
        split
        next roommate hrm_occ =>
          have hq : h.beds (roommate_of n0) = .Occupied roommate := by
            rw [getBed_eq_some hvrm] at hrm_occ
            simpa using hrm_occ
          have hqniv : (roommate.is_infected || roommate.is_vip) = false :=
            roommate_not_vipinf inv hvn0 hocc0 hq
          split
          next dest hdest =>
            intro hmv
            have hdest_mem := head?_mem hdest
            obtain ⟨hdmem, hdava⟩ := mem_get_available.mp hdest_mem
            have hvdest : validBed dest := mem_allBeds.mp hdmem
            obtain ⟨hdvac, -, -, -⟩ := (bed_available_for_iff hvdest).mp hdava
            have hdest_ne_n0 : dest ≠ n0 := by
              intro e
              rw [e, hocc0] at hdvac
              cases hdvac
            have hdest_ne_rm : dest ≠ roommate_of n0 := by
              intro e
              rw [e, hq] at hdvac
              cases hdvac
            have hfind1 := findPatient_eq_of_unique U hrmmem hq
            obtain ⟨bx, x, hfm, hadm⟩ := move_ok_char hmv
            rw [hfind1] at hfm
            have hpair : roommate_of n0 = bx ∧ roommate = x := by simpa using hfm
            rw [← hpair.1, ← hpair.2] at hadm
            rw [freeAndUnblock_not_vip hqniv] at hadm
            obtain ⟨-, -, -, -, -, hstate2⟩ := admit_ok_char hadm
            rw [if_neg (by simp [hqniv])] at hstate2
            subst hstate2
            -- the final blocking branch: the roommate bed is Vacant after the relocation
            have hrm3 : (setBed (setBed (setBed h (roommate_of n0) .Vacant) dest
                (.Occupied roommate)) n0
                (.Occupied { p0 with is_infected := true })).beds (roommate_of n0) =
                BedState.Vacant := by
              simp only [beds_setBed, if_neg hrm_ne,
                if_neg (fun e : roommate_of n0 = dest => hdest_ne_rm e.symm)]
              simp
            rw [getBed_eq_some hvrm, hrm3] at H
            simp only [BedState.is_available] at H
            cases H
            intro n hn q hq' hvip
            have hvn : validBed n := mem_allBeds.mp hn
            rcases occ_setBed hq' with ⟨-, hs⟩ | ⟨hne_rm, hq1⟩
            · cases hs
            rcases occ_setBed hq1 with ⟨rfl, hs⟩ | ⟨hne_n0, hq2⟩
            · simp [beds_setBed]
            rcases occ_setBed hq2 with ⟨rfl, hs⟩ | ⟨hne_d, hq3⟩
            · obtain rfl : roommate = q := by simpa using hs
              rw [hvip] at hqniv
              cases hqniv
            rcases occ_setBed hq3 with ⟨-, hs⟩ | ⟨-, hq4⟩
            · cases hs
            have hB := inv n hn q hq4 hvip
            simp only [beds_setBed]
            by_cases g1 : roommate_of n = roommate_of n0
            · rw [if_pos g1]
            · rw [if_neg g1]
              by_cases g3 : roommate_of n = n0
              · exfalso
                rw [g3, hocc0] at hB
                cases hB
              · rw [if_neg g3]
                by_cases g2 : roommate_of n = dest
                · exfalso
                  rw [g2, hdvac] at hB
                  cases hB
                · rw [if_neg g2, if_neg g1]
                  exact hB
          next hdest =>
            intro hmv
            exact RResult.noConfusion hmv
        next hrm_nocc =>
          intro hstep
          have h2eq : h2 = h := by
            cases hstep
            rfl
          rw [h2eq] at H
          have hnotocc : ∀ y : Patient, h.beds (roommate_of n0) ≠ .Occupied y := by
            intro y hy
            exact hrm_nocc y (by rw [getBed_eq_some hvrm, hy])
          rw [getBed_eq_some hvrm] at H
          have h3rm : (setBed h n0 (.Occupied { p0 with is_infected := true })).beds
              (roommate_of n0) = h.beds (roommate_of n0) := by
            simp [hrm_ne]
          rw [h3rm] at H
          cases hrmst : h.beds (roommate_of n0) with
          | Occupied y => exact absurd hrmst (hnotocc y)
          | Vacant =>
            rw [hrmst] at H
            simp only [BedState.is_available] at H
            cases H
            intro n hn q hq' hvip
            have hvn : validBed n := mem_allBeds.mp hn
            rcases occ_setBed hq' with ⟨-, hs⟩ | ⟨hne_rm, hq1⟩
            · cases hs
            rcases occ_setBed hq1 with ⟨rfl, hs⟩ | ⟨hne_n0, hq2⟩
            · simp [beds_setBed]
            have hB := inv n hn q hq2 hvip
            simp only [beds_setBed]
            by_cases g1 : roommate_of n = roommate_of n0
            · rw [if_pos g1]
            · rw [if_neg g1]
              by_cases g3 : roommate_of n = n0
              · exfalso
                rw [g3, hocc0] at hB
                cases hB
              · rw [if_neg g3]
                exact hB
          | Blocked =>
            rw [hrmst] at H
            simp only [BedState.is_available] at H
            cases H
            intro n hn q hq' hvip
            have hvn : validBed n := mem_allBeds.mp hn
            rcases occ_setBed hq' with ⟨rfl, hs⟩ | ⟨hne_n0, hq2⟩
            · simp only [beds_setBed, if_neg hrm_ne]
              exact hrmst
            have hB := inv n hn q hq2 hvip
            simp only [beds_setBed]
            by_cases g3 : roommate_of n = n0
            · exfalso
              rw [g3, hocc0] at hB
              cases hB
            · rw [if_neg g3]
              exact hB

theorem uniqueCRN_mark {h h' : Hospital} {c : Nat}
    (inv : BlockInv h) (U : UniqueCRN h) (H : mark_patient_as_infected h c = .ok h') :
    UniqueCRN h' := by
  unfold mark_patient_as_infected at H
  split at H
  next hf => exact RResult.noConfusion H
  next n0 p0 hf =>
    obtain ⟨hvn0, hocc0, hcrn0⟩ := findPatient_sound hf
    have hn0mem : n0 ∈ allBeds := mem_allBeds.mpr hvn0
    have hvrm : validBed (roommate_of n0) := roommate_of_valid hvn0
    have hrm_ne : roommate_of n0 ≠ n0 := roommate_of_ne hvn0
    have hrmmem : roommate_of n0 ∈ allBeds := mem_allBeds.mpr hvrm
    have hUrep : UniqueCRN (setBed h n0 (.Occupied { p0 with is_infected := true })) :=
      uniqueCRN_replace U hn0mem hocc0 rfl
    split at H
    next hinf =>
      cases H
      exact U
    next hinf =>
      simp only [] at H
      split at H
      next e h2 hstep => exact RResult.noConfusion H
      next h2 hstep =>
        revert hstep
        split
        next roommate hrm_occ =>
          have hq : h.beds (roommate_of n0) = .Occupied roommate := by
            rw [getBed_eq_some hvrm] at hrm_occ
            simpa using hrm_occ
          have hqniv : (roommate.is_infected || roommate.is_vip) = false :=
            roommate_not_vipinf inv hvn0 hocc0 hq
          split
          next dest hdest =>
            intro hmv
            have hdest_mem := head?_mem hdest
            obtain ⟨hdmem, hdava⟩ := mem_get_available.mp hdest_mem
            have hvdest : validBed dest := mem_allBeds.mp hdmem
            obtain ⟨hdvac, -, -, -⟩ := (bed_available_for_iff hvdest).mp hdava
            have hdest_ne_n0 : dest ≠ n0 := by
              intro e
              rw [e, hocc0] at hdvac
              cases hdvac
            have hdest_ne_rm : dest ≠ roommate_of n0 := by
              intro e
              rw [e, hq] at hdvac
              cases hdvac
            have hfind1 := findPatient_eq_of_unique U hrmmem hq
            obtain ⟨bx, x, hfm, hadm⟩ := move_ok_char hmv
            rw [hfind1] at hfm
            have hpair : roommate_of n0 = bx ∧ roommate = x := by simpa using hfm
            rw [← hpair.1, ← hpair.2] at hadm
            rw [freeAndUnblock_not_vip hqniv] at hadm
            obtain ⟨-, -, -, -, -, hstate2⟩ := admit_ok_char hadm
            rw [if_neg (by simp [hqniv])] at hstate2
            subst hstate2
            have hrm3 : (setBed (setBed (setBed h (roommate_of n0) .Vacant) dest
                (.Occupied roommate)) n0
                (.Occupied { p0 with is_infected := true })).beds (roommate_of n0) =
                BedState.Vacant := by
              simp only [beds_setBed, if_neg hrm_ne,
                if_neg (fun e : roommate_of n0 = dest => hdest_ne_rm e.symm)]
              simp
            rw [getBed_eq_some hvrm, hrm3] at H
            simp only [BedState.is_available] at H
            cases H
            have hOcc : ∀ m y, (setBed (setBed (setBed (setBed h (roommate_of n0) .Vacant)
                  dest (.Occupied roommate)) n0 (.Occupied { p0 with is_infected := true }))
                  (roommate_of n0) .Blocked).beds m = .Occupied y →
                (m = n0 ∧ y = { p0 with is_infected := true }) ∨ (m = dest ∧ y = roommate) ∨
                (m ≠ n0 ∧ m ≠ dest ∧ m ≠ roommate_of n0 ∧ h.beds m = .Occupied y) := by
              intro m y hm
              rcases occ_setBed hm with ⟨-, hs⟩ | ⟨g_rm, hm1⟩
              · cases hs
              rcases occ_setBed hm1 with ⟨gn, hs⟩ | ⟨g_n0, hm2⟩
              · obtain rfl : { p0 with is_infected := true } = y := by simpa using hs
                exact Or.inl ⟨gn, rfl⟩
              rcases occ_setBed hm2 with ⟨gd, hs⟩ | ⟨g_d, hm3⟩
              · obtain rfl : roommate = y := by simpa using hs
                exact Or.inr (Or.inl ⟨gd, rfl⟩)
              rcases occ_setBed hm3 with ⟨-, hs⟩ | ⟨-, hm4⟩
              · cases hs
              · exact Or.inr (Or.inr ⟨g_n0, g_d, g_rm, hm4⟩)
            intro n1 hm1 n2 hm2 p1 p2 hp1 hp2 hc
            have hcrnp : ({ p0 with is_infected := true } : Patient).clinical_record_number =
                p0.clinical_record_number := rfl
            rcases hOcc n1 p1 hp1 with ⟨e1, f1⟩ | ⟨e1, f1⟩ | ⟨e1, f1', g1, ho1⟩
            · rcases hOcc n2 p2 hp2 with ⟨e2, f2⟩ | ⟨e2, f2⟩ | ⟨e2, f2', g2, ho2⟩
              · rw [e1, e2]
              · exfalso
                rw [f1, f2] at hc
                have := U n0 hn0mem (roommate_of n0) hrmmem p0 roommate hocc0 hq
                  (by rw [← hcrnp]; exact hc)
                exact hrm_ne this.symm
              · exfalso
                rw [f1] at hc
                have := U n0 hn0mem n2 hm2 p0 p2 hocc0 ho2 (by rw [← hcrnp]; exact hc)
                exact e2 this.symm
            · rcases hOcc n2 p2 hp2 with ⟨e2, f2⟩ | ⟨e2, f2⟩ | ⟨e2, f2', g2, ho2⟩
              · exfalso
                rw [f1, f2] at hc
                have := U n0 hn0mem (roommate_of n0) hrmmem p0 roommate hocc0 hq
                  (by rw [← hcrnp]; exact hc.symm)
                exact hrm_ne this.symm
              · rw [e1, e2]
              · exfalso
                rw [f1] at hc
                have := U (roommate_of n0) hrmmem n2 hm2 roommate p2 hq ho2 hc
                exact g2 this.symm
            · rcases hOcc n2 p2 hp2 with ⟨e2, f2⟩ | ⟨e2, f2⟩ | ⟨e2, f2', g2, ho2⟩
              · exfalso
                rw [f2] at hc
                have := U n1 hm1 n0 hn0mem p1 p0 ho1 hocc0 (hc.trans hcrnp)
                exact e1 this
              · exfalso
                rw [f2] at hc
                have := U n1 hm1 (roommate_of n0) hrmmem p1 roommate ho1 hq hc
                exact g1 this
              · exact U n1 hm1 n2 hm2 p1 p2 ho1 ho2 hc
          next hdest =>
            intro hmv
            exact RResult.noConfusion hmv
        next hrm_nocc =>
          intro hstep
          have h2eq : h2 = h := by
            cases hstep
            rfl
          rw [h2eq] at H
          rw [getBed_eq_some hvrm] at H
          have h3rm : (setBed h n0 (.Occupied { p0 with is_infected := true })).beds
              (roommate_of n0) = h.beds (roommate_of n0) := by
            simp [hrm_ne]
          rw [h3rm] at H
          cases hrmst : h.beds (roommate_of n0) with
          | Occupied y =>
            exact absurd (by rw [getBed_eq_some hvrm, hrmst]) (hrm_nocc y)
          | Vacant =>
            rw [hrmst] at H
            simp only [BedState.is_available] at H
            cases H
            exact uniqueCRN_setNonOcc hUrep (fun y => by simp)
          | Blocked =>
            rw [hrmst] at H
            simp only [BedState.is_available] at H
            cases H
            exact hUrep

theorem blockInv_unmark {h h' : Hospital} {c : Nat}
    (inv : BlockInv h) (H : unmark_patient_as_infected h c = .ok h') : BlockInv h' := by
  unfold unmark_patient_as_infected at H
  split at H
  next hf => exact RResult.noConfusion H
  next n0 p0 hf =>
    obtain ⟨hvn0, hocc0, hcrn0⟩ := findPatient_sound hf
    have hn0mem : n0 ∈ allBeds := mem_allBeds.mpr hvn0
    have hvrm : validBed (roommate_of n0) := roommate_of_valid hvn0
    have hrm_ne : roommate_of n0 ≠ n0 := roommate_of_ne hvn0
    split at H
    next hinf =>
      cases H
      exact inv
    next hinf =>
      have hp0inf : p0.is_infected = true := by
        cases hb : p0.is_infected
        · rw [hb] at hinf
          exact absurd rfl hinf
        · rfl
      simp only [] at H
      have h1rm : (setBed h n0 (.Occupied { p0 with is_infected := false })).beds
          (roommate_of n0) = h.beds (roommate_of n0) := by
        simp [hrm_ne]
      split at H
      next hvF =>
        have hpvip : p0.is_vip = false := by
          cases hb : p0.is_vip
          · rfl
          · exfalso
            rw [show ({ p0 with is_infected := false } : Patient).is_vip = p0.is_vip
              from rfl, hb] at hvF
            simp at hvF
        split at H
        next rm_bed hrm_bed =>
          split at H
          next hbl =>
            cases H
            intro n hn q hq' hvip
            have hvn : validBed n := mem_allBeds.mp hn
            rcases occ_setBed hq' with ⟨-, hs⟩ | ⟨hne_rm, hq1⟩
            · cases hs
            rcases occ_setBed hq1 with ⟨rfl, hs⟩ | ⟨hne_n0, hq2⟩
            · exfalso
              obtain rfl : { p0 with is_infected := false } = q := by simpa using hs
              simp [hpvip] at hvip
            · have hB := inv n hn q hq2 hvip
              by_cases g1 : roommate_of n = roommate_of n0
              · exfalso
                have : n = roommate_of (roommate_of n0) := eq_roommate_of_of hvn g1
                rw [roommate_of_roommate hvn0] at this
                exact hne_n0 this
              · simp only [beds_setBed, if_neg g1]
                by_cases g3 : roommate_of n = n0
                · exfalso
                  rw [g3, hocc0] at hB
                  cases hB
                · rw [if_neg g3]
                  exact hB
          next hbl =>
            cases H
            intro n hn q hq' hvip
            have hvn : validBed n := mem_allBeds.mp hn
            rcases occ_setBed hq' with ⟨rfl, hs⟩ | ⟨hne_n0, hq2⟩
            · exfalso
              obtain rfl : { p0 with is_infected := false } = q := by simpa using hs
              simp [hpvip] at hvip
            · have hB := inv n hn q hq2 hvip
              simp only [beds_setBed]
              by_cases g3 : roommate_of n = n0
              · exfalso
                rw [g3, hocc0] at hB
                cases hB
              · rw [if_neg g3]
                exact hB
        next hrm_bed =>
          rw [getBed_eq_some hvrm] at hrm_bed
          cases hrm_bed
      next hvT =>
        have hpvip : p0.is_vip = true := by
          cases hb : p0.is_vip
          · exfalso
            rw [show ({ p0 with is_infected := false } : Patient).is_vip = p0.is_vip
              from rfl, hb] at hvT
            simp at hvT
          · rfl
        have hBrm : h.beds (roommate_of n0) = .Blocked :=
          inv n0 hn0mem p0 hocc0 (by simp [hpvip])
        cases H
        intro n hn q hq' hvip
        have hvn : validBed n := mem_allBeds.mp hn
        rcases occ_setBed hq' with ⟨rfl, hs⟩ | ⟨hne_n0, hq2⟩
        · rw [h1rm]
          exact hBrm
        · have hB := inv n hn q hq2 hvip
          simp only [beds_setBed]
          by_cases g3 : roommate_of n = n0
          · exfalso
            rw [g3, hocc0] at hB
            cases hB
          · rw [if_neg g3]
            exact hB

theorem uniqueCRN_unmark {h h' : Hospital} {c : Nat}
    (U : UniqueCRN h) (H : unmark_patient_as_infected h c = .ok h') : UniqueCRN h' := by
  unfold unmark_patient_as_infected at H
  split at H
  next hf => exact RResult.noConfusion H
  next n0 p0 hf =>
    obtain ⟨hvn0, hocc0, hcrn0⟩ := findPatient_sound hf
    have hn0mem : n0 ∈ allBeds := mem_allBeds.mpr hvn0
    have hUrep : UniqueCRN (setBed h n0 (.Occupied { p0 with is_infected := false })) :=
      uniqueCRN_replace U hn0mem hocc0 rfl
    split at H
    next hinf =>
      cases H
      exact U
    next hinf =>
      simp only [] at H
      split at H
      next hvF =>
        split at H
        next rm_bed hrm_bed =>
          split at H
          next hbl =>
            cases H
            exact uniqueCRN_setNonOcc hUrep (fun y => by simp)
          next hbl =>
            cases H
            exact hUrep
        next hrm_bed =>
          cases H
          exact hUrep
      next hvT =>
        cases H
        exact hUrep

theorem blockInv_discharge {h h' : Hospital} {c : Nat}
    (inv : BlockInv h) (H : discharge_patient h c = .ok h') : BlockInv h' := by
  unfold discharge_patient at H
  split at H
  next hf => exact RResult.noConfusion H
  next n0 p0 hf =>
    obtain ⟨hvn0, hocc0, hcrn0⟩ := findPatient_sound hf
    have hvrm : validBed (roommate_of n0) := roommate_of_valid hvn0
    have hrm_ne : roommate_of n0 ≠ n0 := roommate_of_ne hvn0
    simp only [] at H
    have main : ∀ hh', hh' = setBed (setBed h n0 .Vacant) (roommate_of n0) .Vacant ∨
        hh' = setBed h n0 .Vacant → BlockInv hh' := by
      rintro hh' (rfl | rfl) <;>
      · intro n hn q hq' hvip
        have hvn : validBed n := mem_allBeds.mp hn
        have hq2 : n ≠ n0 ∧ h.beds n = .Occupied q := by
          rcases occ_setBed hq' with ⟨-, hs⟩ | ⟨hne1, hq1⟩
          · cases hs
          · first
            | exact ⟨hne1, hq1⟩
            | rcases occ_setBed hq1 with ⟨-, hs⟩ | ⟨hne2, hq2⟩
              · cases hs
              · exact ⟨hne2, hq2⟩
        obtain ⟨hne_n0, hq3⟩ := hq2
        have hB := inv n hn q hq3 hvip
        simp only [beds_setBed]
        by_cases g1 : roommate_of n = roommate_of n0
        · exfalso
          have : n = roommate_of (roommate_of n0) := eq_roommate_of_of hvn g1
          rw [roommate_of_roommate hvn0] at this
          exact hne_n0 this
        · first
          | (rw [if_neg g1]
             by_cases g3 : roommate_of n = n0
             · exfalso
               rw [g3, hocc0] at hB
               cases hB
             · rw [if_neg g3]
               exact hB)
          | (by_cases g3 : roommate_of n = n0
             · exfalso
               rw [g3, hocc0] at hB
               cases hB
             · rw [if_neg g3]
               exact hB)
    split at H
    next hvipinf =>
      split at H
      next rm_bed hrm_bed =>
        split at H
        next hbl =>
          cases H
          exact main _ (Or.inl rfl)
        next hbl =>
          cases H
          exact main _ (Or.inr rfl)
      next hrm_bed =>
        cases H
        exact main _ (Or.inr rfl)
    next hvipinf =>
      cases H
      exact main _ (Or.inr rfl)

theorem uniqueCRN_discharge {h h' : Hospital} {c : Nat}
    (U : UniqueCRN h) (H : discharge_patient h c = .ok h') : UniqueCRN h' := by
  unfold discharge_patient at H
  split at H
  next hf => exact RResult.noConfusion H
  next n0 p0 hf =>
    simp only [] at H
    have hU1 : UniqueCRN (setBed h n0 .Vacant) :=
      uniqueCRN_setNonOcc U (fun y => by simp)
    split at H
    next hvipinf =>
      split at H
      next rm_bed hrm_bed =>
        split at H
        next hbl =>
          cases H
          exact uniqueCRN_setNonOcc hU1 (fun y => by simp)
        next hbl =>
          cases H
          exact hU1
      next hrm_bed =>
        cases H
        exact hU1
    next hvipinf =>
      cases H
      exact hU1

theorem reachableNS_invariants {h : Hospital} (R : ReachableNS h) :
    BlockInv h ∧ UniqueCRN h := by
  induction R with
  | init =>
    constructor
    · intro n hn p hp hv
      exact absurd hp (by simp [Hospital.new])
    · intro n1 h1 n2 h2 p1 p2 hp1 hp2 hc
      exact absurd hp1 (by simp [Hospital.new])
  | admitted hR fresh hok ih => exact ⟨blockInv_admitted ih.1 hok, uniqueCRN_admitted ih.2 fresh hok⟩
  | move hR hok ih => exact ⟨blockInv_move ih.1 hok, uniqueCRN_move ih.2 hok⟩
  | setVip hR hok ih => exact ⟨blockInv_setVip ih.1 ih.2 hok, uniqueCRN_setVip ih.1 ih.2 hok⟩
  | markInfected hR hok ih => exact ⟨blockInv_mark ih.1 ih.2 hok, uniqueCRN_mark ih.1 ih.2 hok⟩
  | unmarkInfected hR hok ih =>
    exact ⟨blockInv_unmark ih.1 hok, uniqueCRN_unmark ih.2 hok⟩
  | discharge hR hok ih => exact ⟨blockInv_discharge ih.1 hok, uniqueCRN_discharge ih.2 hok⟩

/-! ## Stability of the first-match lookup under state changes -/

/-- Bed `m` holds a patient with record number `r`. -/
def occCrn (h : Hospital) (m r : Nat) : Prop :=
  ∃ p : Patient, h.beds m = .Occupied p ∧ p.clinical_record_number = r

theorem findPatientAux_congr {h h' : Hospital} {r : Nat} {l : List Nat}
    (H : ∀ m ∈ l, occCrn h m r ↔ occCrn h' m r) :
    Option.map Prod.fst (findPatientAux h r l) =
      Option.map Prod.fst (findPatientAux h' r l) := by
  induction l with
  | nil => rfl
  | cons m rest ih =>
    have hm := H m (List.mem_cons_self m rest)
    have step : ∀ (g : Hospital), ¬ occCrn g m r →
        findPatientAux g r (m :: rest) = findPatientAux g r rest := by
      intro g hocc
      rw [findPatientAux]
      cases hb : g.beds m with
      | Occupied p =>
        have hcne : p.clinical_record_number ≠ r := fun hc => hocc ⟨p, hb, hc⟩
        simp [hcne]
      | Vacant => rfl
      | Blocked => rfl
    have stepOcc : ∀ (g : Hospital) (p : Patient), g.beds m = .Occupied p →
        p.clinical_record_number = r → findPatientAux g r (m :: rest) = some (m, p) := by
      intro g p hb hc
      rw [findPatientAux, hb]
      simp [hc]
    by_cases hocc : occCrn h m r
    · obtain ⟨p, hp, hc⟩ := hocc
      obtain ⟨p', hp', hc'⟩ := hm.mp ⟨p, hp, hc⟩
      rw [stepOcc h p hp hc, stepOcc h' p' hp' hc']
      rfl
    · have hocc' : ¬ occCrn h' m r := fun hx => hocc (hm.mpr hx)
      rw [step h hocc, step h' hocc']
      exact ih (fun m' hm' => H m' (List.mem_cons_of_mem m hm'))

theorem findPatient_congr {h h' : Hospital} {r n : Nat} {p p' : Patient}
    (H : ∀ m ∈ allBeds, occCrn h m r ↔ occCrn h' m r)
    (hf : findPatient h r = some (n, p)) (hocc' : h'.beds n = .Occupied p') :
    findPatient h' r = some (n, p') := by
  have hmap := findPatientAux_congr H
  rw [show findPatientAux h r allBeds = findPatient h r from rfl,
    show findPatientAux h' r allBeds = findPatient h' r from rfl, hf] at hmap
  cases H' : findPatient h' r with
  | none =>
    rw [H'] at hmap
    cases hmap
  | some v =>
    obtain ⟨m, pm⟩ := v
    rw [H'] at hmap
    have hnm : n = m := by simpa using hmap
    subst hnm
    obtain ⟨-, hbm, -⟩ := findPatientAux_sound H'
    rw [hocc'] at hbm
    obtain rfl : p' = pm := by simpa using hbm
    rfl

theorem freeAndUnblock_eq_of_not_blocked {h : Hospital} {bx : Nat} {x : Patient}
    (hvbx : validBed bx) (hnb : (h.beds (roommate_of bx)).is_blocked = false) :
    freeAndUnblock h bx x = setBed h bx .Vacant := by
  by_cases hv : (x.is_infected || x.is_vip) = true
  · rw [freeAndUnblock_vip hv hvbx, hnb]
    rfl
  · exact freeAndUnblock_not_vip (by simpa using hv)

/-- The state after a successful `mark_patient_as_infected`, under CRN uniqueness, when the
patient's roommate bed was not `Blocked` beforehand: the patient keeps the bed with the
infected flag set, the roommate bed ends `Blocked`, and the record-number occupancy
structure is unchanged. -/
theorem mark_ok_shape {h h1 : Hospital} {r n : Nat} {p : Patient}
    (U : UniqueCRN h) (hf : findPatient h r = some (n, p)) (hinf : p.is_infected = false)
    (hnb : h.beds (roommate_of n) ≠ .Blocked)
    (H : mark_patient_as_infected h r = .ok h1) :
    h1.beds n = .Occupied { p with is_infected := true } ∧
    h1.beds (roommate_of n) = .Blocked ∧
    (∀ m ∈ allBeds, occCrn h m r ↔ occCrn h1 m r) := by
  obtain ⟨hvn, hocc, hcrn⟩ := findPatient_sound hf
  have hnmem : n ∈ allBeds := mem_allBeds.mpr hvn
  have hvrm : validBed (roommate_of n) := roommate_of_valid hvn
  have hrmmem : roommate_of n ∈ allBeds := mem_allBeds.mpr hvrm
  have hrm_ne : roommate_of n ≠ n := roommate_of_ne hvn
  unfold mark_patient_as_infected at H
  split at H
  next hf' =>
    rw [hf'] at hf
    cases hf
  next n0 p0 hf' =>
    rw [hf'] at hf
    have hpair0 : n0 = n ∧ p0 = p := by simpa using hf
    have e1 : n = n0 := hpair0.1.symm
    have e2 : p = p0 := hpair0.2.symm
    subst e1
    subst e2
    split at H
    next hinf' =>
      rw [hinf] at hinf'
      cases hinf'
    next hinf' =>
      simp only [] at H
      split at H
      next e h2 hstep => exact RResult.noConfusion H
      next h2 hstep =>
        revert hstep
        split
        next roommate hrm_occ =>
          have hq : h.beds (roommate_of n) = .Occupied roommate := by
            rw [getBed_eq_some hvrm] at hrm_occ
            simpa using hrm_occ
          have hqcrn : roommate.clinical_record_number ≠ r := by
            intro hcq
            have := U (roommate_of n) hrmmem n hnmem roommate p hq hocc (by rw [hcq, hcrn])
            exact hrm_ne this
          split
          next dest hdest =>
            intro hmv
            have hdest_mem := head?_mem hdest
            obtain ⟨hdmem, hdava⟩ := mem_get_available.mp hdest_mem
            have hvdest : validBed dest := mem_allBeds.mp hdmem
            obtain ⟨hdvac, -, -, -⟩ := (bed_available_for_iff hvdest).mp hdava
            have hdest_ne_n : dest ≠ n := by
              intro e
              rw [e, hocc] at hdvac
              cases hdvac
            have hdest_ne_rm : dest ≠ roommate_of n := by
              intro e
              rw [e, hq] at hdvac
              cases hdvac
            have hfind1 := findPatient_eq_of_unique U hrmmem hq
            obtain ⟨bx, x, hfm, hadm⟩ := move_ok_char hmv
            rw [hfind1] at hfm
            have hpair : roommate_of n = bx ∧ roommate = x := by simpa using hfm
            rw [← hpair.1, ← hpair.2] at hadm
            rw [freeAndUnblock_eq_of_not_blocked hvrm (by
              rw [roommate_of_roommate hvn, hocc]
              rfl)] at hadm
            obtain ⟨-, -, -, -, hfreeD, hstate2⟩ := admit_ok_char hadm
            have hrdest_ne_rm : roommate_of dest ≠ roommate_of n := by
              intro e
              have := eq_roommate_of_of hvdest e
              rw [roommate_of_roommate hvn] at this
              exact hdest_ne_n this
            have hrdest_ne_n : roommate_of dest ≠ n := by
              intro e
              have : dest = roommate_of n := eq_roommate_of_of hvdest e
              exact hdest_ne_rm this
            -- the final blocking branch fires because the roommate bed became Vacant
            have hrm3 : ∀ hmid2, hmid2 = (if (roommate.is_infected || roommate.is_vip) = true
                then setBed (setBed (setBed h (roommate_of n) .Vacant) dest
                  (.Occupied roommate)) (roommate_of dest) .Blocked
                else setBed (setBed h (roommate_of n) .Vacant) dest (.Occupied roommate)) →
                (setBed hmid2 n (.Occupied { p with is_infected := true })).beds
                  (roommate_of n) = BedState.Vacant := by
              intro hmid2 hdef
              subst hdef
              by_cases hqv : (roommate.is_infected || roommate.is_vip) = true
              · rw [if_pos hqv]
                simp only [beds_setBed, if_neg hrm_ne,
                  if_neg (fun e : roommate_of n = roommate_of dest => hrdest_ne_rm e.symm),
                  if_neg (fun e : roommate_of n = dest => hdest_ne_rm e.symm)]
                simp
              · rw [if_neg hqv]
                simp only [beds_setBed, if_neg hrm_ne,
                  if_neg (fun e : roommate_of n = dest => hdest_ne_rm e.symm)]
                simp
            rw [hstate2] at H
            rw [getBed_eq_some hvrm, hrm3 _ rfl] at H
            simp only [BedState.is_available] at H
            cases H
            refine ⟨?_, ?_, ?_⟩
            · simp only [beds_setBed, if_neg (fun e : n = roommate_of n => hrm_ne e.symm)]
              simp
            · simp [beds_setBed]
            · intro m hm
              by_cases hm_rm : m = roommate_of n
              · subst hm_rm
                simp only [occCrn, beds_setBed, if_pos rfl, hq]
                constructor
                · rintro ⟨y, hy, hyc⟩
                  obtain rfl : roommate = y := by simpa using hy
                  exact absurd hyc hqcrn
                · rintro ⟨y, hy, hyc⟩
                  cases hy
              · by_cases hm_n : m = n
                · subst hm_n
                  simp only [occCrn, beds_setBed, if_neg hm_rm, if_pos rfl, hocc]
                  constructor
                  · rintro ⟨y, hy, hyc⟩
                    obtain rfl : p = y := by simpa using hy
                    exact ⟨{ p with is_infected := true }, rfl, hyc⟩
                  · rintro ⟨y, hy, hyc⟩
                    obtain rfl : { p with is_infected := true } = y := by simpa using hy
                    exact ⟨p, rfl, hyc⟩
                · by_cases hqv : (roommate.is_infected || roommate.is_vip) = true
                  · rw [if_pos hqv]
                    by_cases hm_rd : m = roommate_of dest
                    · subst hm_rd
                      have hrdvac : h.beds (roommate_of dest) = .Vacant := by
                        have := hfreeD hqv
                        simp only [beds_setBed,
                          if_neg (fun e : roommate_of dest = roommate_of n =>
                            hrdest_ne_rm e)] at this
                        exact this
                      simp only [occCrn, beds_setBed, hrdvac, if_neg hm_rm, if_neg hm_n,
                        if_pos rfl]
                      constructor
                      · rintro ⟨y, hy, hyc⟩
                        cases hy
                      · rintro ⟨y, hy, hyc⟩
                        cases hy
                    · by_cases hm_d : m = dest
                      · subst hm_d
                        simp only [occCrn, beds_setBed, hdvac, if_neg hm_rm, if_neg hm_n,
                          if_neg hm_rd, if_pos rfl]
                        constructor
                        · rintro ⟨y, hy, hyc⟩
                          cases hy
                        · rintro ⟨y, hy, hyc⟩
                          obtain rfl : roommate = y := by simpa using hy
                          exact absurd hyc hqcrn
                      · simp only [occCrn, beds_setBed, if_neg hm_rm, if_neg hm_n,
                          if_neg hm_rd, if_neg hm_d]
                  · rw [if_neg hqv]
                    by_cases hm_d : m = dest
                    · subst hm_d
                      simp only [occCrn, beds_setBed, hdvac, if_neg hm_rm, if_neg hm_n,
                        if_pos rfl]
                      constructor
                      · rintro ⟨y, hy, hyc⟩
                        cases hy
                      · rintro ⟨y, hy, hyc⟩
                        obtain rfl : roommate = y := by simpa using hy
                        exact absurd hyc hqcrn
                    · simp only [occCrn, beds_setBed, if_neg hm_rm, if_neg hm_n, if_neg hm_d]
          next hdest =>
            intro hmv
            exact RResult.noConfusion hmv
        next hrm_nocc =>
          intro hstep
          have h2eq : h2 = h := by
            cases hstep
            rfl
          rw [h2eq] at H
          have hnotocc : ∀ y : Patient, h.beds (roommate_of n) ≠ .Occupied y := by
            intro y hy
            exact hrm_nocc y (by rw [getBed_eq_some hvrm, hy])
          have hrmvac : h.beds (roommate_of n) = .Vacant := by
            cases hrmst : h.beds (roommate_of n) with
            | Occupied y => exact absurd hrmst (hnotocc y)
            | Vacant => rfl
            | Blocked => exact absurd hrmst hnb
          rw [getBed_eq_some hvrm] at H
          have h3rm : (setBed h n (.Occupied { p with is_infected := true })).beds
              (roommate_of n) = BedState.Vacant := by
            simp only [beds_setBed, if_neg hrm_ne]
            exact hrmvac
          rw [h3rm] at H
          simp only [BedState.is_available] at H
          cases H
          refine ⟨?_, ?_, ?_⟩
          · simp only [beds_setBed, if_neg (fun e : n = roommate_of n => hrm_ne e.symm)]
            simp
          · simp [beds_setBed]
          · intro m hm
            by_cases hm_rm : m = roommate_of n
            · subst hm_rm
              simp only [occCrn, beds_setBed, if_pos rfl, hrmvac]
              constructor
              · rintro ⟨y, hy, hyc⟩
                cases hy
              · rintro ⟨y, hy, hyc⟩
                cases hy
            · by_cases hm_n : m = n
              · subst hm_n
                simp only [occCrn, beds_setBed, if_neg hm_rm, if_pos rfl, hocc]
                constructor
                · rintro ⟨y, hy, hyc⟩
                  obtain rfl : p = y := by simpa using hy
                  exact ⟨{ p with is_infected := true }, rfl, hyc⟩
                · rintro ⟨y, hy, hyc⟩
                  obtain rfl : { p with is_infected := true } = y := by simpa using hy
                  exact ⟨p, rfl, hyc⟩
              · simp only [occCrn, beds_setBed, if_neg hm_rm, if_neg hm_n]

theorem unmark_after_mark_restores {h h1 h2 : Hospital} {r n : Nat} {p : Patient}
    (U : UniqueCRN h) (hf : findPatient h r = some (n, p))
    (hvip : p.is_vip = false) (hinf : p.is_infected = false)
    (hnb : h.beds (roommate_of n) ≠ .Blocked)
    (H1 : mark_patient_as_infected h r = .ok h1)
    (H2 : unmark_patient_as_infected h1 r = .ok h2) :
    (h2.beds (roommate_of n) = .Blocked ↔ h.beds (roommate_of n) = .Blocked) ∧
    (h.beds (roommate_of n) = .Vacant → h2.beds (roommate_of n) = .Vacant) := by
  obtain ⟨hA, hB, hC⟩ := mark_ok_shape U hf hinf hnb H1
  obtain ⟨hvn, hocc, hcrn⟩ := findPatient_sound hf
  have hrm_ne : roommate_of n ≠ n := roommate_of_ne hvn
  have hvrm : validBed (roommate_of n) := roommate_of_valid hvn
  have hfind1 : findPatient h1 r = some (n, { p with is_infected := true }) :=
    findPatient_congr hC hf hA
  unfold unmark_patient_as_infected at H2
  split at H2
  next hf1 =>
    rw [hfind1] at hf1
    cases hf1
  next n0 p0 hf1 =>
    rw [hfind1] at hf1
    have hpair0 : n = n0 ∧ { p with is_infected := true } = p0 := by simpa using hf1
    obtain ⟨e1, e2⟩ := hpair0
    rw [e1.symm, e2.symm] at H2
    split at H2
    next hcond =>
      exfalso
      simp at hcond
    next hcond =>
      simp only [] at H2
      split at H2
      next hvcond =>
        split at H2
        next rm_bed hrm_bed =>
          split at H2
          next hbl =>
            cases H2
            refine ⟨⟨fun hcontra => ?_, fun hcontra => absurd hcontra hnb⟩, fun _ => ?_⟩
            · exfalso
              simp at hcontra
            · simp
          next hbl =>
            exfalso
            rw [getBed_eq_some hvrm] at hrm_bed
            have hrmb : rm_bed = BedState.Blocked := by
              have hx : rm_bed = (setBed h1 n (.Occupied { { p with is_infected := true } with
                  is_infected := false })).beds (roommate_of n) := by
                simpa using hrm_bed.symm
              rw [beds_setBed, if_neg hrm_ne, hB] at hx
              exact hx
            subst hrmb
            simp [BedState.is_blocked] at hbl
        next hrm_bed =>
          rw [getBed_eq_some hvrm] at hrm_bed
          cases hrm_bed
      next hvcond =>
        exfalso
        exact hvcond (by simp [hvip])

theorem bed_available_for_setBed_occ {h : Hospital} {n : Nat} {pn p' q0 q : Patient}
    (hvn : validBed n) (hn : h.beds n = .Occupied pn)
    (hrm : h.beds (roommate_of n) = .Occupied q0) (m : Nat) :
    bed_available_for (setBed h n (.Occupied p')) q m = bed_available_for h q m := by
  by_cases hvm : validBed m
  · by_cases hmn : m = n
    · subst hmn
      have L : bed_available_for (setBed h m (.Occupied p')) q m = false := by
        unfold bed_available_for
        rw [getBed_eq_some hvm]
        simp [BedState.is_available]
      have R : bed_available_for h q m = false := by
        unfold bed_available_for
        rw [getBed_eq_some hvm, hn]
        simp [BedState.is_available]
      rw [L, R]
    · by_cases hmr : m = roommate_of n
      · subst hmr
        have L : bed_available_for (setBed h n (.Occupied p')) q (roommate_of n) = false := by
          unfold bed_available_for
          rw [getBed_eq_some hvm, beds_setBed, if_neg (roommate_of_ne hvn), hrm]
          simp [BedState.is_available]
        have R : bed_available_for h q (roommate_of n) = false := by
          unfold bed_available_for
          rw [getBed_eq_some hvm, hrm]
          simp [BedState.is_available]
        rw [L, R]
      · have hrmn : roommate_of m ≠ n := fun e => hmr (eq_roommate_of_of hvm e)
        unfold bed_available_for
        simp only [getBed_eq_some hvm, getBed_eq_some (roommate_of_valid hvm), beds_setBed,
          if_neg hmn, if_neg hrmn]
  · have L : bed_available_for (setBed h n (.Occupied p')) q m = false := by
      unfold bed_available_for
      rw [getBed_eq_none hvm]
    have R : bed_available_for h q m = false := by
      unfold bed_available_for
      rw [getBed_eq_none hvm]
    rw [L, R]

theorem get_available_setBed_occ {h : Hospital} {n : Nat} {pn p' q0 q : Patient}
    (hvn : validBed n) (hn : h.beds n = .Occupied pn)
    (hrm : h.beds (roommate_of n) = .Occupied q0) :
    get_available_beds_for_patient (setBed h n (.Occupied p')) q
      = get_available_beds_for_patient h q := by
  unfold get_available_beds_for_patient
  exact List.filter_congr fun m _ => bed_available_for_setBed_occ hvn hn hrm m

theorem setVip_err_char {h : Hospital} {r n : Nat} {p q0 : Patient}
    (hf : findPatient h r = some (n, p)) (hvip : p.is_vip = false)
    (hrm : h.beds (roommate_of n) = .Occupied q0)
    (hempty : get_available_beds_for_patient h q0 = []) :
    set_patient_vip h r true =
      .err "No available bed to relocate roommate"
        (setBed h n (.Occupied { p with is_vip := true })) := by
  obtain ⟨hvn, hocc, hcrn⟩ := findPatient_sound hf
  have hvrm : validBed (roommate_of n) := roommate_of_valid hvn
  have hrm_ne : roommate_of n ≠ n := roommate_of_ne hvn
  unfold set_patient_vip
  split
  next heq =>
    rw [hf] at heq
    cases heq
  next n0 p0 heq =>
    rw [hf] at heq
    have hpair : n = n0 ∧ p = p0 := by simpa using heq
    obtain ⟨e1, e2⟩ := hpair
    subst e1
    subst e2
    rw [if_neg (by simp [hvip])]
    simp only []
    simp only [if_true]
    have hg : getBed (setBed h n (.Occupied { p with is_vip := true })) (roommate_of n)
        = some (.Occupied q0) := by
      rw [getBed_eq_some hvrm, beds_setBed, if_neg hrm_ne, hrm]
    rw [hg]
    simp only []
    have htr : get_available_beds_for_patient
        (setBed h n (.Occupied { p with is_vip := true })) q0
        = get_available_beds_for_patient h q0 := get_available_setBed_occ hvn hocc hrm
    rw [htr, hempty]
    rfl

/-- The error message carried by a result (`""` for a success). -/
def RResult.msg : RResult → String
  | .ok _ => ""
  | .err e _ => e

theorem RResult.eq_ok {r : RResult} (H : r.isOk = true) : r = .ok r.state := by
  cases r with
  | ok h => rfl
  | err e h => exact Bool.noConfusion H

theorem RResult.eq_err {r : RResult} (H : r.isOk = false) : r = .err r.msg r.state := by
  cases r with
  | ok h => exact Bool.noConfusion H
  | err e h => rfl

/-- Ward states reachable from `Hospital::new` through arbitrary successful public
operations (hospital.rs lines 41-399), including `switch_patients`: the reachability the
specification's global-invariant section quantifies over. -/
inductive Reachable : Hospital → Prop where
  | init : Reachable Hospital.new
  | admitted {h h' : Hospital} {p : Patient} {b : Nat} : Reachable h →
      admit_patient h p b = .ok h' → Reachable h'
  | move {h h' : Hospital} {c d : Nat} : Reachable h →
      move_patient h c d = .ok h' → Reachable h'
  | switch {h h' : Hospital} {c1 c2 : Nat} : Reachable h →
      switch_patients h c1 c2 = .ok h' → Reachable h'
  | setVip {h h' : Hospital} {c : Nat} {v : Bool} : Reachable h →
      set_patient_vip h c v = .ok h' → Reachable h'
  | markInfected {h h' : Hospital} {c : Nat} : Reachable h →
      mark_patient_as_infected h c = .ok h' → Reachable h'
  | unmarkInfected {h h' : Hospital} {c : Nat} : Reachable h →
      unmark_patient_as_infected h c = .ok h' → Reachable h'
  | discharge {h h' : Hospital} {c : Nat} : Reachable h →
      discharge_patient h c = .ok h' → Reachable h'

theorem switch_err_state {h : Hospital} {c1 c2 : Nat} {e : String} {h' : Hospital}
    (H : switch_patients h c1 c2 = .err e h') : h' = h := by
  unfold switch_patients at H
  split at H
  next =>
    cases H
    rfl
  next =>
    cases H
    rfl
  next n1 p1 n2 p2 =>
    split at H
    next =>
      cases H
      rfl
    next =>
      split at H
      next =>
        cases H
        rfl
      next =>
        split at H
        next e' heq =>
          cases H
          rfl
        next heq =>
          split at H
          next e' heq2 =>
            cases H
            rfl
          next heq2 => exact RResult.noConfusion H

theorem switch_ok_char {h : Hospital} {c1 c2 : Nat} {h' : Hospital}
    (H : switch_patients h c1 c2 = .ok h') :
    ∃ n1 p1 n2 p2, (switch_scan h c1 c2).1 = some (n1, p1) ∧
      (switch_scan h c1 c2).2 = some (n2, p2) ∧
      h' = setBed (setBed h n1 (.Occupied p2)) n2 (.Occupied p1) := by
  unfold switch_patients at H
  split at H
  next => exact RResult.noConfusion H
  next => exact RResult.noConfusion H
  next n1 p1 n2 p2 hscan =>
    have hs1 : (switch_scan h c1 c2).1 = some (n1, p1) := by rw [hscan]
    have hs2 : (switch_scan h c1 c2).2 = some (n2, p2) := by rw [hscan]
    split at H
    next => exact RResult.noConfusion H
    next =>
      split at H
      next => exact RResult.noConfusion H
      next =>
        split at H
        next e' heq => exact RResult.noConfusion H
        next heq =>
          split at H
          next e' heq2 => exact RResult.noConfusion H
          next heq2 =>
            cases H
            exact ⟨n1, p1, n2, p2, hs1, hs2, rfl⟩

/-- A VIP patient (scenario data for the concrete witnesses below). -/
def pA : Patient := ⟨30001, "Alice", 50, .Female, false, true⟩

/-- A plain patient. -/
def pB : Patient := ⟨30002, "Beth", 40, .Female, false, false⟩

/-- A plain patient. -/
def pC : Patient := ⟨10001, "Carol", 30, .Female, false, false⟩

/-- A plain patient, compatible roommate of `pC`. -/
def qC : Patient := ⟨10002, "Dana", 35, .Female, false, false⟩

/-- A full ward: `pC` in bed 101, `qC` in bed 102, every other bed `Blocked`, so no bed
is available for relocation. -/
def hC2 : Hospital :=
  ⟨fun n => if n = 101 then .Occupied pC else if n = 102 then .Occupied qC else .Blocked⟩

/-- `Hospital::new` after admitting the VIP `pA` to bed 101 (bed 102 becomes `Blocked`). -/
def wardA1 : Hospital := (admit_patient Hospital.new pA 101).state

/-- `wardA1` after admitting the plain `pB` to bed 201. -/
def wardA2 : Hospital := (admit_patient wardA1 pB 201).state

/-- `wardA2` after the successful `switch_patients(30001, 30002)`: the VIP `pA` now lies
in bed 201 while its roommate bed 202 is still `Vacant`. -/
def wardA3 : Hospital := (switch_patients wardA2 30001 30002).state

/-- `Hospital::new` after admitting the plain `pC` to bed 101. -/
def wardB1 : Hospital := (admit_patient Hospital.new pC 101).state

/-- `wardB1` after admitting the plain `qC` to bed 102. -/
def wardB2 : Hospital := (admit_patient wardB1 qC 102).state

/-- `wardB2` after `mark_patient_as_infected(10001)`: `qC` is relocated to bed 103 and
bed 102 becomes `Blocked`. -/
def wardB3 : Hospital := (mark_patient_as_infected wardB2 10001).state

/-- `wardB3` after `unmark_patient_as_infected(10001)`: bed 102 is set `Vacant`, although
before the mark it was `Occupied qC`. -/
def wardB4 : Hospital := (unmark_patient_as_infected wardB3 10001).state

theorem reachableNS_wardA1 : ReachableNS wardA1 :=
  ReachableNS.admitted ReachableNS.init (by decide) (RResult.eq_ok (by decide))

theorem reachableNS_wardB2 : ReachableNS wardB2 :=
  ReachableNS.admitted
    (ReachableNS.admitted ReachableNS.init (by decide) (RResult.eq_ok (by decide)))
    (by decide) (RResult.eq_ok (by decide))

theorem reachable_wardA3 : Reachable wardA3 :=
  Reachable.switch
    (Reachable.admitted (Reachable.admitted Reachable.init (RResult.eq_ok (by decide)))
      (RResult.eq_ok (by decide)))
    (RResult.eq_ok (by decide))

theorem reachable_wardB2 : Reachable wardB2 :=
  Reachable.admitted (Reachable.admitted Reachable.init (RResult.eq_ok (by decide)))
    (RResult.eq_ok (by decide))

/-- C1 (amended): every ward state reachable from `Hospital::new` through successful
public operations other than `switch_patients`, admitting only patients whose clinical
record number is not already present, satisfies the blocking invariant: every bed
occupied by an infected or VIP patient has its roommate bed `Blocked`. -/
theorem C1_blocking_invariant {h : Hospital} (R : ReachableNS h) : BlockInv h :=
  (reachableNS_invariants R).1

theorem C1_blocking_invariant_witness : BlockInv wardA1 :=
  C1_blocking_invariant reachableNS_wardA1

/-- C1, as stated, is refuted: `switch_patients` does no blocking bookkeeping, so a
successful switch of a VIP patient with a plain patient in another room yields a
reachable state whose VIP-occupied bed has a `Vacant` roommate bed. -/
theorem C1_switch_breaks_blocking : ¬ (∀ h : Hospital, Reachable h → BlockInv h) := by
  intro H
  have hb := H wardA3 reachable_wardA3 201 (by decide) pA (by decide) (by decide)
  exact absurd hb (by decide)

/-- C2 (amended): when a non-VIP patient's roommate bed is `Occupied` and the occupant
has no available bed, `set_patient_vip(r, true)` returns the relocation error, and the
returned state differs from the pre-call state in exactly one way: the patient's bed now
holds the patient with `is_vip = true` (the flag is written before the relocation check,
so the failed call still mutates it). -/
theorem C2_setVip_error_mutates_flag {h : Hospital} {r n : Nat} {p q0 : Patient}
    (hf : findPatient h r = some (n, p)) (hvip : p.is_vip = false)
    (hrm : h.beds (roommate_of n) = .Occupied q0)
    (hempty : get_available_beds_for_patient h q0 = []) :
    ∃ h', set_patient_vip h r true = .err "No available bed to relocate roommate" h' ∧
      h'.beds n = .Occupied { p with is_vip := true } ∧
      ∀ m, m ≠ n → h'.beds m = h.beds m := by
  refine ⟨setBed h n (.Occupied { p with is_vip := true }),
    setVip_err_char hf hvip hrm hempty, ?_, ?_⟩
  · rw [beds_setBed, if_pos rfl]
  · intro m hm
    rw [beds_setBed, if_neg hm]

theorem C2_setVip_error_mutates_flag_witness :
    ∃ h', set_patient_vip hC2 10001 true =
        .err "No available bed to relocate roommate" h' ∧
      h'.beds 101 = .Occupied { pC with is_vip := true } ∧
      ∀ m, m ≠ 101 → h'.beds m = hC2.beds m :=
  @C2_setVip_error_mutates_flag hC2 10001 101 pC qC (by decide) (by decide) (by decide)
    (by decide)

/-- C2, as stated, is refuted: on the full ward `hC2` the call fails as described but the
returned state is not the pre-call state — the patient's `is_vip` flag has been written
to the bed. -/
theorem C2_setVip_not_unchanged :
    ¬ (∀ (h : Hospital) (r n : Nat) (p q0 : Patient),
        findPatient h r = some (n, p) → p.is_vip = false →
        h.beds (roommate_of n) = .Occupied q0 →
        get_available_beds_for_patient h q0 = [] →
        ∃ e h', set_patient_vip h r true = .err e h' ∧ h' = h) := by
  intro H
  obtain ⟨e, h', heq, rfl⟩ := H hC2 10001 101 pC qC (by decide) (by decide) (by decide)
    (by decide)
  have e1 : (set_patient_vip hC2 10001 true).state = hC2 := congrArg RResult.state heq
  have e2 : (set_patient_vip hC2 10001 true).state.beds 101 =
      .Occupied { pC with is_vip := true } := by decide
  rw [e1] at e2
  exact absurd e2 (by decide)

/-- C3 (amended): on every ward state reachable without `switch_patients` (fresh-CRN
admissions), a failed `move_patient` returns the pre-call state exactly: the patient's
bed, the old roommate bed and every other bed are as before the call. -/
theorem C3_move_error_rollback {h : Hospital} {r d n : Nat} {p : Patient} {e : String}
    {h' : Hospital} (R : ReachableNS h) (hf : findPatient h r = some (n, p))
    (H : move_patient h r d = .err e h') : h' = h := by
  obtain ⟨inv, -⟩ := reachableNS_invariants R
  obtain ⟨hvn, hocc, -⟩ := findPatient_sound hf
  refine move_err_restores hf (fun hv => ?_) H
  have hb := inv n (mem_allBeds.mpr hvn) p hocc hv
  rw [hb]
  decide

theorem C3_move_error_rollback_witness :
    (move_patient wardA1 30001 999).state = wardA1 :=
  @C3_move_error_rollback wardA1 30001 999 101 pA (move_patient wardA1 30001 999).msg
    (move_patient wardA1 30001 999).state reachableNS_wardA1 (by decide)
    (RResult.eq_err (by decide))

/-- C3, as stated, is refuted: from the switch-reachable state `wardA3` (VIP `pA` in bed
201 with bed 202 `Vacant`), a failed `move_patient(30001, 999)` rolls back by re-blocking
bed 202, so the old roommate bed does not keep the state it had before the call. -/
theorem C3_rollback_not_exact :
    ¬ (∀ (h : Hospital) (r d n : Nat) (p : Patient) (e : String) (h' : Hospital),
        Reachable h → findPatient h r = some (n, p) → move_patient h r d = .err e h' →
        h'.beds n = .Occupied p ∧ h'.beds (roommate_of n) = h.beds (roommate_of n) ∧
        ∀ m, m ≠ n → m ≠ roommate_of n → h'.beds m = h.beds m) := by
  intro H
  obtain ⟨-, e1, -⟩ := H wardA3 30001 999 201 pA (move_patient wardA3 30001 999).msg
    (move_patient wardA3 30001 999).state reachable_wardA3 (by decide)
    (RResult.eq_err (by decide))
  have l : (move_patient wardA3 30001 999).state.beds (roommate_of 201) = .Blocked := by
    decide
  have r : wardA3.beds (roommate_of 201) = .Vacant := by decide
  rw [l, r] at e1
  exact BedState.noConfusion e1

/-- C4: `switch_patients` is atomic.  On error the returned state is the pre-call state.
On success the two found beds swap their occupants and every other bed is unchanged. -/
theorem C4_switch_atomic (h : Hospital) (a b : Nat) :
    (∀ e h', switch_patients h a b = .err e h' → h' = h) ∧
    (∀ h', switch_patients h a b = .ok h' →
      ∃ n1 p1 n2 p2,
        h.beds n1 = .Occupied p1 ∧ p1.clinical_record_number = a ∧
        h.beds n2 = .Occupied p2 ∧ p2.clinical_record_number = b ∧ n1 ≠ n2 ∧
        h'.beds n1 = .Occupied p2 ∧ h'.beds n2 = .Occupied p1 ∧
        ∀ m, m ≠ n1 → m ≠ n2 → h'.beds m = h.beds m) := by
  constructor
  · exact fun e h' H => switch_err_state H
  · intro h' H
    obtain ⟨n1, p1, n2, p2, hs1, hs2, hst⟩ := switch_ok_char H
    obtain ⟨hm1, hb1, hc1⟩ := switch_scan_sound.1 n1 p1 hs1
    obtain ⟨hm2, hb2, hc2, -⟩ := switch_scan_sound.2 n2 p2 hs2
    have hne : n1 ≠ n2 := switch_scan_distinct hs1 hs2
    refine ⟨n1, p1, n2, p2, hb1, hc1, hb2, hc2, hne, ?_, ?_, ?_⟩
    · rw [hst, beds_setBed, if_neg hne, beds_setBed, if_pos rfl]
    · rw [hst, beds_setBed, if_pos rfl]
    · intro m hm1' hm2'
      rw [hst, beds_setBed, if_neg hm2', beds_setBed, if_neg hm1']

/-- C5: a successful `admit_patient(p, b)` leaves bed `b` `Occupied p`; if moreover `p`
is VIP or infected and the roommate bed was `Vacant` before the call, the roommate bed is
`Blocked` afterwards. -/
theorem C5_admit_success_shape {h : Hospital} {p : Patient} {b : Nat} {h' : Hospital}
    (H : admit_patient h p b = .ok h') :
    h'.beds b = .Occupied p ∧
    ((p.is_vip || p.is_infected) = true → h.beds (roommate_of b) = .Vacant →
      h'.beds (roommate_of b) = .Blocked) := by
  obtain ⟨hvb, hvac, hage, hocc, hfree, hstate⟩ := admit_ok_char H
  have hrm_ne : roommate_of b ≠ b := roommate_of_ne hvb
  constructor
  · rw [hstate]
    split
    next =>
      rw [beds_setBed, if_neg (fun c : b = roommate_of b => hrm_ne c.symm), beds_setBed,
        if_pos rfl]
    next =>
      rw [beds_setBed, if_pos rfl]
  · intro hvip hv
    have hvip' : (p.is_infected || p.is_vip) = true := by rw [Bool.or_comm]; exact hvip
    rw [hstate, if_pos hvip', beds_setBed, if_pos rfl]

theorem C5_admit_success_shape_witness :
    wardA1.beds 101 = .Occupied pA ∧ wardA1.beds (roommate_of 101) = .Blocked :=
  ⟨(@C5_admit_success_shape Hospital.new pA 101 wardA1 (RResult.eq_ok (by decide))).1,
   (@C5_admit_success_shape Hospital.new pA 101 wardA1 (RResult.eq_ok (by decide))).2
     (by decide) (by decide)⟩

/-- C6: `get_available_beds_for_patient` returns an ascending-sorted list holding exactly
the valid bed numbers that are `Vacant`, satisfy the age/unit rule, whose occupied
roommate (if any) matches in gender and under-16 bracket and is neither infected nor VIP,
and whose roommate bed is `Vacant` when the patient is VIP or infected. -/
theorem C6_available_beds_char (h : Hospital) (p : Patient) :
    List.Sorted (· < ·) (get_available_beds_for_patient h p) ∧
    ∀ b, b ∈ get_available_beds_for_patient h p ↔
      validBed b ∧ h.beds b = .Vacant ∧ (13 ≤ p.age ∨ b / 100 = 5) ∧
      (∀ q, h.beds (roommate_of b) = .Occupied q →
        p.gender = q.gender ∧ ((p.age < 16) ↔ (q.age < 16)) ∧
        q.is_infected = false ∧ q.is_vip = false) ∧
      ((p.is_vip || p.is_infected) = true → h.beds (roommate_of b) = .Vacant) := by
  refine ⟨get_available_sorted h p, fun b => ?_⟩
  rw [mem_get_available, mem_allBeds]
  constructor
  · rintro ⟨v, hav⟩
    obtain ⟨h1, h2, h3, h4⟩ := (bed_available_for_iff v).mp hav
    exact ⟨v, h1, h2, h3, fun hv => h4 (by rwa [Bool.or_comm])⟩
  · rintro ⟨v, h1, h2, h3, h4⟩
    exact ⟨v, (bed_available_for_iff v).mpr ⟨h1, h2, h3, fun hv => h4 (by rwa [Bool.or_comm])⟩⟩

/-- C7 (amended): for a patient with both flags false whose clinical record number is
unique and whose roommate bed is not `Blocked` before the call, a successful
`mark_patient_as_infected` immediately followed by a successful
`unmark_patient_as_infected` preserves the roommate bed's `Blocked` status (it is
`Blocked` after the pair iff it was before), and a `Vacant` roommate bed stays `Vacant`;
an `Occupied` roommate bed, however, is left `Vacant` (see the counterexample). -/
theorem C7_mark_unmark_roommate {h h1 h2 : Hospital} {r n : Nat} {p : Patient}
    (U : UniqueCRN h) (hf : findPatient h r = some (n, p))
    (hvip : p.is_vip = false) (hinf : p.is_infected = false)
    (hnb : h.beds (roommate_of n) ≠ .Blocked)
    (H1 : mark_patient_as_infected h r = .ok h1)
    (H2 : unmark_patient_as_infected h1 r = .ok h2) :
    (h2.beds (roommate_of n) = .Blocked ↔ h.beds (roommate_of n) = .Blocked) ∧
    (h.beds (roommate_of n) = .Vacant → h2.beds (roommate_of n) = .Vacant) :=
  unmark_after_mark_restores U hf hvip hinf hnb H1 H2

theorem C7_mark_unmark_roommate_witness :
    (wardB4.beds (roommate_of 101) = .Blocked ↔
      wardB2.beds (roommate_of 101) = .Blocked) ∧
    (wardB2.beds (roommate_of 101) = .Vacant →
      wardB4.beds (roommate_of 101) = .Vacant) :=
  @C7_mark_unmark_roommate wardB2 wardB3 wardB4 10001 101 pC
    (reachableNS_invariants reachableNS_wardB2).2 (by decide) (by decide) (by decide)
    (by decide) (RResult.eq_ok (by decide)) (RResult.eq_ok (by decide))

/-- C7, as stated, is refuted: from the reachable state `wardB2` (plain `pC` in bed 101,
plain `qC` in bed 102), marking `pC` infected relocates `qC` and blocks bed 102, and the
immediate unmark leaves bed 102 `Vacant` — not `Occupied` as before the pair, so the
roommate bed's Blocked-versus-Vacant status is not restored. -/
theorem C7_mark_unmark_not_restoring :
    ¬ (∀ (h h1 h2 : Hospital) (r n : Nat) (p : Patient),
        Reachable h → findPatient h r = some (n, p) →
        p.is_vip = false → p.is_infected = false →
        mark_patient_as_infected h r = .ok h1 →
        unmark_patient_as_infected h1 r = .ok h2 →
        ((h2.beds (roommate_of n) = .Blocked ↔ h.beds (roommate_of n) = .Blocked) ∧
         (h2.beds (roommate_of n) = .Vacant ↔ h.beds (roommate_of n) = .Vacant))) := by
  intro H
  obtain ⟨-, hv⟩ := H wardB2 wardB3 wardB4 10001 101 pC reachable_wardB2 (by decide)
    (by decide) (by decide) (RResult.eq_ok (by decide)) (RResult.eq_ok (by decide))
  have e1 : wardB2.beds (roommate_of 101) = .Vacant := hv.mp (by decide)
  exact absurd e1 (by decide)

/-- C8: `Hospital::new` builds a ward over exactly the 4 x 38 = 152 bed numbers
`unit * 100 + index` for `unit` in `VALID_UNITS` and `index` in `1..=38`, each `Vacant`. -/
theorem C8_new_ward :
    allBeds.length = 152 ∧ allBeds.Nodup ∧
    (∀ n, n ∈ allBeds ↔
      ∃ u ∈ VALID_UNITS, ∃ i, FIRST_BED_INDEX ≤ i ∧ i ≤ LAST_BED_INDEX ∧
        n = u * 100 + i) ∧
    (∀ n ∈ allBeds, Hospital.new.beds n = .Vacant) := by
  refine ⟨by decide, allBeds_nodup, fun n => ?_, fun n _ => rfl⟩
  rw [mem_allBeds]
  unfold validBed VALID_UNITS FIRST_BED_INDEX LAST_BED_INDEX
  constructor
  · rintro ⟨hu, h1, h2⟩
    exact ⟨n / 100, by simpa using hu, n % 100, h1, h2, by omega⟩
  · rintro ⟨u, hu, i, h1, h2, rfl⟩
    simp only [List.mem_cons, List.not_mem_nil, or_false] at hu
    rcases hu with rfl | rfl | rfl | rfl <;> exact ⟨by omega, by omega, by omega⟩

/-- C9: `switch_patients(r, r)` with an admitted patient `r` always fails with
"Second patient not found" and returns the ward unchanged: the single lookup loop binds a
bed to the first slot only, so the second slot stays empty. -/
theorem C9_switch_self_error {h : Hospital} {r : Nat}
    (H : (findPatient h r).isSome = true) :
    switch_patients h r r = .err "Second patient not found" h := by
  rw [Option.isSome_iff_exists] at H
  obtain ⟨v, hf⟩ := H
  obtain ⟨n, p⟩ := v
  obtain ⟨hvn, hocc, hcrn⟩ := findPatient_sound hf
  have h1 : ((switch_scan h r r).1).isSome = true :=
    switch_scan_fst_isSome (mem_allBeds.mpr hvn) hocc hcrn
  have h2 : (switch_scan h r r).2 = none := switch_scan_snd_self
  unfold switch_patients
  split
  next heq =>
    exfalso
    rw [heq] at h1
    simp at h1
  next heq =>
    rfl
  next n1 p1 n2 p2 heq =>
    exfalso
    rw [heq] at h2
    simp at h2

theorem C9_switch_self_error_witness :
    switch_patients wardB2 10001 10001 = .err "Second patient not found" wardB2 :=
  C9_switch_self_error (by decide)

/-- C10: when a patient with `is_infected = false` has an `Occupied` roommate bed whose
occupant has no available bed, `mark_patient_as_infected` fails with
"No available bed to move roommate" and returns exactly the pre-call state: the infected
flag is written to the bed only after a successful relocation. -/
theorem C10_mark_error_unchanged {h : Hospital} {r n : Nat} {p q0 : Patient}
    (hf : findPatient h r = some (n, p)) (hinf : p.is_infected = false)
    (hrm : h.beds (roommate_of n) = .Occupied q0)
    (hempty : get_available_beds_for_patient h q0 = []) :
    mark_patient_as_infected h r = .err "No available bed to move roommate" h := by
  obtain ⟨hvn, hocc, hcrn⟩ := findPatient_sound hf
  have hvrm : validBed (roommate_of n) := roommate_of_valid hvn
  unfold mark_patient_as_infected
  split
  next heq =>
    rw [hf] at heq
    cases heq
  next n0 p0 heq =>
    rw [hf] at heq
    have hpair : n = n0 ∧ p = p0 := by simpa using heq
    obtain ⟨e1, e2⟩ := hpair
    subst e1
    subst e2
    rw [if_neg (by simp [hinf])]
    simp only []
    have hg : getBed h (roommate_of n) = some (.Occupied q0) := by
      rw [getBed_eq_some hvrm, hrm]
    rw [hg]
    simp only []
    rw [hempty]
    rfl

theorem C10_mark_error_unchanged_witness :
    mark_patient_as_infected hC2 10001 = .err "No available bed to move roommate" hC2 :=
  @C10_mark_error_unchanged hC2 10001 101 pC qC (by decide) (by decide) (by decide)
    (by decide)
